import Mathlib

/-!
Verification development for the spirq SPIR-V reflection engine.

The definitions below shallowly embed the reflection code of
`src/src/reflect.rs` (the reflection intermediate, descriptor
classification, specialization-constant folding, entry-point projection
and image+sampler fusion) and `src/spirq-reflect/src/main.rs` (the CLI
blob loader).  Machine integers are modelled as `Nat` bit patterns with
explicit `% 2^32` wrap-around where the Rust code wraps; fallible code
returns `Except`; the one place where the Rust code can panic (division
by zero inside `overflowing_div` and friends) is modelled by a distinct
`FoldOutcome.panic` outcome.
-/

set_option autoImplicit false

namespace Spirq

/-- Error taxonomy of `error.rs`, as named in `reflect.rs`. -/
inductive Error where
  | corruptedBinary
  | instrTooShort
  | idCollision
  | nameCollision
  | decoCollision
  | tyNotFound
  | constNotFound
  | funcNotFound
  | brokenNestedTy
  | brokenAccessChain
  | missingDeco
  | unencodedEnum
  | unsupportedTy
  | unsupportedExecMode
  | unsupportedSpec
  | unsupportedConstTy
  | specTyMismatched
  | accessConflict
deriving DecidableEq, Repr

/-- Access type of a variable (`AccessType` in `reflect.rs`). -/
inductive AccessType where
  | readOnly
  | writeOnly
  | readWrite
deriving DecidableEq, Repr

/-- Descriptor set and binding point carrier (`DescriptorBinding`). -/
structure DescriptorBinding where
  set : Nat
  bind : Nat
deriving DecidableEq, Repr

/-- Interface variable location and component (`InterfaceLocation`). -/
structure InterfaceLocation where
  loc : Nat
  comp : Nat
deriving DecidableEq, Repr

/-- Modelled from the spec: scalar kinds of the reconstructed type algebra
of `ty.rs` (not under src/), per the data-model table of the spec. -/
inductive ScalarType where
  | boolean
  | signed (nbyte : Nat)
  | unsigned (nbyte : Nat)
  | float (nbyte : Nat)
deriving DecidableEq, Repr

/-- Modelled from the spec: vector type of `ty.rs`. -/
structure VectorType where
  scalarTy : ScalarType
  nscalar : Nat
deriving DecidableEq, Repr

/-- Modelled from the spec: matrix major-axis order of `ty.rs`. -/
inductive MatrixAxisOrder where
  | rowMajor
  | columnMajor
deriving DecidableEq, Repr

/-- Modelled from the spec: matrix type of `ty.rs`; stride and major order
are set only when the matrix is decorated as a struct member. -/
structure MatrixType where
  vecTy : VectorType
  nvec : Nat
  stride : Option Nat
  major : Option MatrixAxisOrder
deriving DecidableEq, Repr

/-- Modelled from the spec: image unit format of `ty.rs`: a color format,
or sampled, or depth. -/
inductive ImageUnitFormat where
  | color (fmt : Nat)
  | sampled
  | depth
deriving DecidableEq, Repr

/-- Modelled from the spec: image arrangement (dim, arrayed, multisampled)
of `ty.rs`.  Classification only distinguishes `imageBuffer` from the
rest. -/
inductive ImageArrangement where
  | image1D
  | image2D
  | image2DMS
  | image3D
  | cubeMap
  | image1DArray
  | image2DArray
  | image2DMSArray
  | cubeMapArray
  | imageBuffer
deriving DecidableEq, Repr

/-- Modelled from the spec: image type of `ty.rs`. -/
structure ImageType where
  scalarTy : Option ScalarType
  unitFmt : ImageUnitFormat
  arng : ImageArrangement
deriving DecidableEq, Repr

/-- Modelled from the spec: sampled image type of `ty.rs`. -/
structure SampledImageType where
  imgTy : ImageType
deriving DecidableEq, Repr

/-- Modelled from the spec: subpass data type of `ty.rs`. -/
structure SubpassDataType where
  scalarTy : Option ScalarType
  isMultisampled : Bool
deriving DecidableEq, Repr

/-- Modelled from the spec: the reconstructed type algebra of `ty.rs`.
Array repeat 0 means unsized; stride is present only when an
`ArrayStride` decoration was seen.  Struct members are
(name, byte offset, member type) triples. -/
inductive Ty where
  | void
  | scalar (s : ScalarType)
  | vector (v : VectorType)
  | matrix (m : MatrixType)
  | image (i : ImageType)
  | sampler
  | sampledImage (s : SampledImageType)
  | subpassData (s : SubpassDataType)
  | array (protoTy : Ty) (nrepeat : Option Nat) (stride : Option Nat)
  | struct (name : Option String) (members : List (Option String × Nat × Ty))
  | accelStruct
deriving Repr

/-- Descriptor type matching VkDescriptorType (`DescriptorType`). -/
inductive DescriptorType where
  | sampler
  | combinedImageSampler
  | sampledImage
  | storageImage (access : AccessType)
  | uniformTexelBuffer
  | storageTexelBuffer (access : AccessType)
  | uniformBuffer
  | storageBuffer (access : AccessType)
  | inputAttachment (idx : Nat)
  | accelStruct
deriving DecidableEq, Repr

/-- A reflected variable (`Variable` in `reflect.rs`). -/
inductive Variable where
  | input (name : Option String) (location : InterfaceLocation) (ty : Ty)
  | output (name : Option String) (location : InterfaceLocation) (ty : Ty)
  | descriptor (name : Option String) (descBind : DescriptorBinding)
      (descTy : DescriptorType) (ty : Ty) (nbind : Nat)
  | pushConstant (name : Option String) (ty : Ty)
  | specConstant (name : Option String) (specId : Nat) (ty : Ty)
deriving Repr

/-- Variable locator (`Locator` in `reflect.rs`). -/
inductive Locator where
  | input (l : InterfaceLocation)
  | output (l : InterfaceLocation)
  | descriptor (b : DescriptorBinding)
  | pushConstant
  | specConstant (specId : Nat)
deriving DecidableEq, Repr

/-- Locator of a variable (`Variable::locator`). -/
def Variable.locator : Variable → Locator
  | .input _ location _ => .input location
  | .output _ location _ => .output location
  | .descriptor _ descBind _ _ _ => .descriptor descBind
  | .pushConstant _ _ => .pushConstant
  | .specConstant _ specId _ => .specConstant specId

/-- Number of bindings if the variable is a descriptor (`Variable::nbind`). -/
def Variable.nbind : Variable → Option Nat
  | .descriptor _ _ _ _ nbind => some nbind
  | _ => none

/-- Descriptor type if the variable is a descriptor (`Variable::desc_ty`). -/
def Variable.descTy : Variable → Option DescriptorType
  | .descriptor _ _ descTy _ _ => some descTy
  | _ => none

/-- True exactly on the `SpecConstant` variant of `Variable`. -/
def Variable.isSpecConstant : Variable → Bool
  | .specConstant _ _ _ => true
  | _ => false

/-- Decoration kinds consulted by `reflect.rs` (the numeric values of the
spirv-headers `Decoration` enum are irrelevant to the logic; only the keys
matter). -/
inductive Decoration where
  | specId
  | rowMajor
  | colMajor
  | arrayStride
  | matrixStride
  | bufferBlock
  | location
  | component
  | binding
  | descriptorSet
  | offset
  | nonWritable
  | nonReadable
  | inputAttachmentIndex
deriving DecidableEq, Repr

/-- Storage class of a variable, with a catch-all for the classes the code
silently ignores. -/
inductive StorageClass where
  | input
  | output
  | uniform
  | storageBuffer
  | uniformConstant
  | pushConstant
  | other (code : Nat)
deriving DecidableEq, Repr

/-- Constant values as stored by `ConstantValue` in `reflect.rs`.  Each
numeric variant carries its raw little-endian bit pattern (`bits < 2^width`
for values produced by the code); `transmute` between `I32` and `U32` is
then the identity on bits, exactly as in the Rust code. -/
inductive ConstantValue where
  | bool (b : Bool)
  | i32 (bits : Nat)
  | u32 (bits : Nat)
  | f32 (bits : Nat)
  | i64 (bits : Nat)
  | u64 (bits : Nat)
  | f64 (bits : Nat)
deriving DecidableEq, Repr

/-- Reflection intermediate of a constant (`ConstantIntermediate`). -/
structure ConstantIntermediate where
  value : ConstantValue
  specId : Option Nat
deriving DecidableEq, Repr

/-- Function reflection intermediate (`FunctionIntermediate`): accessed
variable ids and callee function ids.  The Rust hash sets are modelled as
lists; only membership matters to the reflection logic. -/
structure FunctionIntermediate where
  accessedVars : List Nat
  callees : List Nat
deriving DecidableEq, Repr

/-- Entry-point declaration record (`EntryPointDeclartion`). -/
structure EntryPointDeclaration where
  funcId : Nat
  name : String
  execModel : Nat
deriving DecidableEq, Repr

/-- Execution-mode declaration record (`ExecutionModeDeclaration`).  The
execution-mode payload itself is opaque to every claim, so it is carried
as a bare code. -/
structure ExecutionModeDeclaration where
  funcId : Nat
  executionMode : Nat
deriving DecidableEq, Repr

/-- Association-list lookup, the model of `HashMap::get`. -/
def alookup {α β : Type} [DecidableEq α] (k : α) : List (α × β) → Option β
  | [] => none
  | (a, b) :: rest => if a = k then some b else alookup k rest

/-- The reflection intermediate (`ReflectIntermediate`).  Hash maps are
modelled as association lists with at most one entry per key in any state
the code builds. -/
structure Itm where
  entryPointDeclrs : List EntryPointDeclaration
  executionModeDeclrs : List ExecutionModeDeclaration
  vars : List Variable
  nameMap : List ((Nat × Option Nat) × String)
  decoMap : List ((Nat × Option Nat × Decoration) × List Nat)
  tyMap : List (Nat × Ty)
  varMap : List (Nat × Nat)
  constMap : List (Nat × ConstantIntermediate)
  ptrMap : List (Nat × Nat)
  funcMap : List (Nat × FunctionIntermediate)
  declrMap : List (Locator × Nat)

/-- Check whether a result or member has a decoration (`contains_deco`). -/
def Itm.containsDeco (itm : Itm) (id : Nat) (memberIdx : Option Nat)
    (deco : Decoration) : Bool :=
  (alookup (id, memberIdx, deco) itm.decoMap).isSome

/-- Multi-word decoration of an instruction result (`get_deco_list`). -/
def Itm.getDecoList (itm : Itm) (id : Nat) (deco : Decoration) :
    Option (List Nat) :=
  alookup (id, none, deco) itm.decoMap

/-- Single-word decoration of an instruction result (`get_deco_u32`). -/
def Itm.getDecoU32 (itm : Itm) (id : Nat) (deco : Decoration) : Option Nat :=
  (itm.getDecoList id deco).bind (fun x => x.head?)

/-- Multi-word decoration of a member (`get_member_deco_list`). -/
def Itm.getMemberDecoList (itm : Itm) (id : Nat) (memberIdx : Nat)
    (deco : Decoration) : Option (List Nat) :=
  alookup (id, some memberIdx, deco) itm.decoMap

/-- Single-word decoration of a member (`get_member_deco_u32`). -/
def Itm.getMemberDecoU32 (itm : Itm) (id : Nat) (memberIdx : Nat)
    (deco : Decoration) : Option Nat :=
  (itm.getMemberDecoList id memberIdx deco).bind (fun x => x.head?)

/-- Location-component pair of an interface variable (`get_var_location`). -/
def Itm.getVarLocation (itm : Itm) (varId : Nat) : Option InterfaceLocation :=
  let comp := (itm.getDecoU32 varId .component).getD 0
  (itm.getDecoU32 varId .location).map (fun loc => ⟨loc, comp⟩)

/-- Set-binding pair of a descriptor resource (`get_var_desc_bind`). -/
def Itm.getVarDescBind (itm : Itm) (varId : Nat) : Option DescriptorBinding :=
  let descSet := (itm.getDecoU32 varId .descriptorSet).getD 0
  (itm.getDecoU32 varId .binding).map (fun bindPoint => ⟨descSet, bindPoint⟩)

/-- Set-binding pair with (0, 0) fallback (`get_var_desc_bind_or_default`). -/
def Itm.getVarDescBindOrDefault (itm : Itm) (varId : Nat) : DescriptorBinding :=
  (itm.getVarDescBind varId).getD ⟨0, 0⟩

/-- Type table lookup (`get_ty`). -/
def Itm.getTy (itm : Itm) (tyId : Nat) : Except Error Ty :=
  match alookup tyId itm.tyMap with
  | some ty => .ok ty
  | none => .error .tyNotFound

/-- Variable lookup through `var_map` into `vars` (`get_var`). -/
def Itm.getVar (itm : Itm) (varId : Nat) : Option Variable :=
  (alookup varId itm.varMap).bind (fun ivar => itm.vars.get? ivar)

/-- Constant table lookup (`get_const`). -/
def Itm.getConst (itm : Itm) (constId : Nat) : Except Error ConstantIntermediate :=
  match alookup constId itm.constMap with
  | some c => .ok c
  | none => .error .constNotFound

/-- Name of an instruction result (`get_name`). -/
def Itm.getName (itm : Itm) (id : Nat) : Option String :=
  alookup (id, none) itm.nameMap

/-- Name of a member of an instruction result (`get_member_name`). -/
def Itm.getMemberName (itm : Itm) (id : Nat) (memberIdx : Nat) : Option String :=
  alookup (id, some memberIdx) itm.nameMap

/-- Function table lookup (`get_func`). -/
def Itm.getFunc (itm : Itm) (funcId : Nat) : Option FunctionIntermediate :=
  alookup funcId itm.funcMap

/-- Name of a variable through its locator (`get_var_name`). -/
def Itm.getVarName (itm : Itm) (locator : Locator) : Option String :=
  (alookup locator itm.declrMap).bind itm.getName

/-- Access type of a descriptor from the NonWritable and NonReadable
decorations of the variable id (`get_desc_access`); `none` is the
conflicting case. -/
def Itm.getDescAccess (itm : Itm) (varId : Nat) : Option AccessType :=
  let readOnly := itm.containsDeco varId none .nonWritable
  let writeOnly := itm.containsDeco varId none .nonReadable
  match readOnly, writeOnly with
  | true, true => none
  | true, false => some .readOnly
  | false, true => some .writeOnly
  | false, false => some .readWrite

/-- Pointer map lookup resolving a pointer type to its pointee
(`access_chain` in `reflect.rs`). -/
def Itm.accessChain (itm : Itm) (tyId : Nat) : Option Nat :=
  alookup tyId itm.ptrMap

/-- Fields of a decoded `OpVariable` instruction. -/
structure OpVariable where
  tyId : Nat
  varId : Nat
  storeCls : StorageClass

/-- Strip one outer array layer to obtain the binding count and the
prototype type (`extract_proto_ty` inside `populate_one_var`); a missing
repeat count means dynamic multi-binding and is reported as 0. -/
def extract_proto_ty : Ty → Nat × Ty
  | .array protoTy nrepeat _ => (nrepeat.getD 0, protoTy)
  | ty => (1, ty)

/-- Translation of `populate_one_var`: classify one `OpVariable` into a
reflected `Variable`, returning `none` when the variable is silently
skipped and an error when reflection fails.  The registration effect on
the tables is immaterial to the claims and omitted. -/
def populate_one_var (itm : Itm) (op : OpVariable) : Except Error (Option Variable) :=
  match itm.accessChain op.tyId with
  | none => .error .brokenAccessChain
  | some tyId =>
    match alookup tyId itm.tyMap with
    | none =>
      -- A variable declared on an unregistered type is an input/output
      -- block passed between stages and is ignored.
      .ok none
    | some ty =>
      let name := itm.getName op.varId
      match op.storeCls with
      | .input =>
        match itm.getVarLocation op.varId with
        | some location => .ok (some (.input name location ty))
        | none => .ok none
      | .output =>
        match itm.getVarLocation op.varId with
        | some location => .ok (some (.output name location ty))
        | none => .ok none
      | .pushConstant =>
        match ty with
        | .struct sname members => .ok (some (.pushConstant name (.struct sname members)))
        | _ => .error .tyNotFound
      | .uniform =>
        let (nbind, ty) := extract_proto_ty ty
        let descBind := itm.getVarDescBindOrDefault op.varId
        if itm.containsDeco tyId none .bufferBlock then
          match itm.getDescAccess op.varId with
          | none => .error .accessConflict
          | some access =>
            .ok (some (.descriptor name descBind (.storageBuffer access) ty nbind))
        else
          .ok (some (.descriptor name descBind .uniformBuffer ty nbind))
      | .storageBuffer =>
        let (nbind, ty) := extract_proto_ty ty
        let descBind := itm.getVarDescBindOrDefault op.varId
        match itm.getDescAccess op.varId with
        | none => .error .accessConflict
        | some access =>
          .ok (some (.descriptor name descBind (.storageBuffer access) ty nbind))
      | .uniformConstant =>
        let (nbind, ty) := extract_proto_ty ty
        let descBind := itm.getVarDescBindOrDefault op.varId
        match ty with
        | .image imgTy =>
          match imgTy.unitFmt with
          | .color _ =>
            match itm.getDescAccess op.varId with
            | none => .error .accessConflict
            | some access =>
              let descTy := match imgTy.arng with
                | .imageBuffer => DescriptorType.storageTexelBuffer access
                | _ => DescriptorType.storageImage access
              .ok (some (.descriptor name descBind descTy (.image imgTy) nbind))
          | .sampled =>
            let descTy := match imgTy.arng with
              | .imageBuffer => DescriptorType.uniformTexelBuffer
              | _ => DescriptorType.sampledImage
            .ok (some (.descriptor name descBind descTy (.image imgTy) nbind))
          | .depth =>
            .ok (some (.descriptor name descBind .sampledImage (.image imgTy) nbind))
        | .sampler =>
          .ok (some (.descriptor name descBind .sampler .sampler nbind))
        | .sampledImage sampledImgTy =>
          let descTy := if sampledImgTy.imgTy.arng = ImageArrangement.imageBuffer then
              DescriptorType.uniformTexelBuffer
            else
              DescriptorType.combinedImageSampler
          .ok (some (.descriptor name descBind descTy (.sampledImage sampledImgTy) nbind))
        | .subpassData sd =>
          match itm.getDecoU32 op.varId .inputAttachmentIndex with
          | none => .error .missingDeco
          | some inputAttmIdx =>
            .ok (some (.descriptor name descBind (.inputAttachment inputAttmIdx)
              (.subpassData sd) nbind))
        | .accelStruct =>
          .ok (some (.descriptor name descBind .accelStruct .accelStruct nbind))
        | _ => .error .unsupportedTy
      | .other _ =>
        -- Unknown storage classes leak out silently.
        .ok none

/-- Strip all array layers down to the prototype, as the while-loop of the
`OP_TYPE_STRUCT` branch of `populate_one_ty` does. -/
def strip_arrays : Ty → Ty
  | .array protoTy _ _ => strip_arrays protoTy
  | ty => ty

/-- Apply a matrix stride and major-axis order to the matrix reached
through the array layers of a struct member type, mirroring the in-place
mutation through the mutable prototype reference in `populate_one_ty`. -/
def bake_matrix (stride : Nat) (major : MatrixAxisOrder) : Ty → Ty
  | .array protoTy nrepeat s => .array (bake_matrix stride major protoTy) nrepeat s
  | .matrix m => .matrix { m with stride := some stride, major := some major }
  | ty => ty

/-- Translation of the member loop of the `OP_TYPE_STRUCT` branch of
`populate_one_ty`: walk the member type ids at member index `i`,
collecting decorated members.  An `ok none` result is the silent early
return: an unregistered member type or a member without an `Offset`
decoration leaves the whole struct unregistered. -/
def struct_members_loop (itm : Itm) (tyId : Nat) :
    Nat → List Nat → Except Error (Option (List (Option String × Nat × Ty)))
  | _, [] => .ok (some [])
  | i, memberTyId :: rest =>
    match alookup memberTyId itm.tyMap with
    | none => .ok none
    | some memberTy =>
      let decorated : Except Error Ty :=
        match strip_arrays memberTy with
        | .matrix _ =>
          match itm.getMemberDecoU32 tyId i .matrixStride with
          | none => .error .missingDeco
          | some matStride =>
            let rowMajor := itm.containsDeco tyId (some i) .rowMajor
            let colMajor := itm.containsDeco tyId (some i) .colMajor
            match rowMajor, colMajor with
            | true, false => .ok (bake_matrix matStride .rowMajor memberTy)
            | false, true => .ok (bake_matrix matStride .columnMajor memberTy)
            | _, _ => .error .unencodedEnum
        | _ => .ok memberTy
      match decorated with
      | .error e => .error e
      | .ok memberTy =>
        let name := match itm.getMemberName tyId i with
          | some nm => if nm = "" then none else some nm
          | none => none
        match itm.getMemberDecoU32 tyId i .offset with
        | some offset =>
          match struct_members_loop itm tyId (i + 1) rest with
          | .ok (some members) => .ok (some ((name, offset, memberTy) :: members))
          | other => other
        | none =>
          -- Shader input/output blocks carry no offset decorations; the
          -- struct is dropped silently.
          .ok none

/-- Translation of the `OP_TYPE_STRUCT` branch of `populate_one_ty`:
either the fully decorated struct type to be registered (`some`), a
silent skip (`none`), or an error.  The final `put_ty` id-collision check
is included. -/
def populate_one_ty_struct (itm : Itm) (tyId : Nat) (memberTyIds : List Nat) :
    Except Error (Option Ty) :=
  let structName := itm.getName tyId
  match struct_members_loop itm tyId 0 memberTyIds with
  | .error e => .error e
  | .ok none => .ok none
  | .ok (some members) =>
    if (alookup tyId itm.tyMap).isSome then .error .idCollision
    else .ok (some (.struct structName members))

/-- Signed interpretation of a 32-bit pattern, the meaning of a Rust
`transmute::<u32, i32>`. -/
def s32OfBits (bits : Nat) : Int :=
  if bits < 2 ^ 31 then (bits : Int) else (bits : Int) - 2 ^ 32

/-- Bit pattern of a signed 32-bit result, wrapping on overflow exactly as
the Rust `overflowing_*` family does. -/
def bitsOfS32 (x : Int) : Nat :=
  (x % (2 ^ 32 : Int)).toNat

/-- Conversion of a constant to a signed 32-bit value
(`ConstantValue::to_s32`): accepts the signless `I32`/`U32` variants
bit-for-bit and rejects everything else. -/
def ConstantValue.to_s32 : ConstantValue → Except Error Int
  | .i32 bits => .ok (s32OfBits bits)
  | .u32 bits => .ok (s32OfBits bits)
  | _ => .error .specTyMismatched

/-- Conversion of a constant to an unsigned 32-bit value
(`ConstantValue::to_u32`): accepts the signless `I32`/`U32` variants
bit-for-bit and rejects everything else. -/
def ConstantValue.to_u32 : ConstantValue → Except Error Nat
  | .i32 bits => .ok bits
  | .u32 bits => .ok bits
  | _ => .error .specTyMismatched

/-- SPIR-V opcode numbers matched by `populate_one_spec_const_op`; the
values are those of `consts.rs` (the standard SPIR-V opcodes). -/
def OP_SNEGATE : Nat := 126
def OP_IADD : Nat := 128
def OP_ISUB : Nat := 130
def OP_IMUL : Nat := 132
def OP_UDIV : Nat := 134
def OP_SDIV : Nat := 135
def OP_UMOD : Nat := 137
def OP_SREM : Nat := 138
def OP_SMOD : Nat := 139
def OP_SHIFT_RIGHT_LOGICAL : Nat := 194
def OP_SHIFT_RIGHT_ARITHMETIC : Nat := 195
def OP_SHIFT_LEFT_LOGICAL : Nat := 196
def OP_BITWISE_OR : Nat := 197
def OP_BITWISE_XOR : Nat := 198
def OP_BITWISE_AND : Nat := 199
def OP_NOT : Nat := 200

/-- Outcome of folding one `OpSpecConstantOp`: a registered constant, a
typed error, or a process abort (a Rust panic, e.g. division by zero in
`overflowing_div`). -/
inductive FoldOutcome where
  | registered (c : ConstantIntermediate)
  | err (e : Error)
  | panic
deriving DecidableEq, Repr

/-- Shared shape of the unsigned binary branches of
`populate_one_spec_const_op`: fetch both operands through `to_u32` and
combine; a `none` from the combiner is a panic. -/
def spec_bin_u32 (itm : Itm) (aId bId : Nat) (f : Nat → Nat → Option Nat) :
    FoldOutcome :=
  match itm.getConst aId with
  | .error e => .err e
  | .ok ca =>
    match ca.value.to_u32 with
    | .error e => .err e
    | .ok a =>
      match itm.getConst bId with
      | .error e => .err e
      | .ok cb =>
        match cb.value.to_u32 with
        | .error e => .err e
        | .ok b =>
          match f a b with
          | none => .panic
          | some v => .registered ⟨.u32 v, none⟩

/-- Shared shape of the signed binary branches of
`populate_one_spec_const_op`: fetch both operands through `to_s32` and
combine; a `none` from the combiner is a panic. -/
def spec_bin_s32 (itm : Itm) (aId bId : Nat) (f : Int → Int → Option Int) :
    FoldOutcome :=
  match itm.getConst aId with
  | .error e => .err e
  | .ok ca =>
    match ca.value.to_s32 with
    | .error e => .err e
    | .ok a =>
      match itm.getConst bId with
      | .error e => .err e
      | .ok cb =>
        match cb.value.to_s32 with
        | .error e => .err e
        | .ok b =>
          match f a b with
          | none => .panic
          | some v => .registered ⟨.i32 (bitsOfS32 v), none⟩

/-- Translation of `populate_one_spec_const_op` without the final
`put_const`: compute the folded constant for one `OpSpecConstantOp`.
Unary opcodes decode only the first operand id.  The arithmetic of each
branch mirrors the Rust `overflowing_*` calls: results wrap to 32 bits,
and the division and remainder operators panic on a zero divisor. -/
def fold_spec_const_op (itm : Itm) (opcode : Nat) (aId bId : Nat) : FoldOutcome :=
  if opcode = OP_SNEGATE then
    match itm.getConst aId with
    | .error e => .err e
    | .ok ca =>
      match ca.value.to_s32 with
      | .error e => .err e
      | .ok a => .registered ⟨.i32 (bitsOfS32 (-a)), none⟩
  else if opcode = OP_NOT then
    match itm.getConst aId with
    | .error e => .err e
    | .ok ca =>
      match ca.value.to_u32 with
      | .error e => .err e
      | .ok a => .registered ⟨.u32 (2 ^ 32 - 1 - a % 2 ^ 32), none⟩
  else if opcode = OP_IADD then
    spec_bin_u32 itm aId bId (fun a b => some ((a + b) % 2 ^ 32))
  else if opcode = OP_ISUB then
    spec_bin_u32 itm aId bId (fun a b => some (bitsOfS32 ((a : Int) - (b : Int))))
  else if opcode = OP_IMUL then
    spec_bin_u32 itm aId bId (fun a b => some ((a * b) % 2 ^ 32))
  else if opcode = OP_UDIV then
    spec_bin_u32 itm aId bId (fun a b => if b = 0 then none else some (a / b))
  else if opcode = OP_SDIV then
    spec_bin_s32 itm aId bId (fun a b => if b = 0 then none else some (Int.tdiv a b))
  else if opcode = OP_UMOD then
    spec_bin_u32 itm aId bId (fun a b => if b = 0 then none else some (a % b))
  else if opcode = OP_SREM then
    spec_bin_s32 itm aId bId (fun a b => if b = 0 then none else some (Int.tmod a b))
  else if opcode = OP_SMOD then
    spec_bin_s32 itm aId bId (fun a b => if b = 0 then none else some (Int.emod a b))
  else if opcode = OP_SHIFT_RIGHT_LOGICAL then
    spec_bin_u32 itm aId bId (fun a b => some (a >>> (b % 32)))
  else if opcode = OP_SHIFT_LEFT_LOGICAL then
    spec_bin_u32 itm aId bId (fun a b => some ((a <<< (b % 32)) % 2 ^ 32))
  else if opcode = OP_BITWISE_OR then
    spec_bin_u32 itm aId bId (fun a b => some (a ||| b))
  else if opcode = OP_BITWISE_XOR then
    spec_bin_u32 itm aId bId (fun a b => some (a ^^^ b))
  else if opcode = OP_BITWISE_AND then
    spec_bin_u32 itm aId bId (fun a b => some (a &&& b))
  else
    -- Arithmetic right shift and every other opcode are unsupported.
    .err .unsupportedSpec

/-- Translation of `populate_one_spec_const_op` including the final
`put_const` registration with its id-collision check. -/
def populate_one_spec_const_op (itm : Itm) (specConstId opcode aId bId : Nat) :
    FoldOutcome :=
  match fold_spec_const_op itm opcode aId bId with
  | .registered c =>
    if (alookup specConstId itm.constMap).isSome then .err .idCollision
    else .registered c
  | other => other

/-- Type of a constant value (`ConstantValue::ty`). -/
def ConstantValue.ty : ConstantValue → Ty
  | .bool _ => .scalar .boolean
  | .i32 _ => .scalar (.signed 4)
  | .u32 _ => .scalar (.unsigned 4)
  | .f32 _ => .scalar (.float 4)
  | .i64 _ => .scalar (.signed 8)
  | .u64 _ => .scalar (.unsigned 8)
  | .f64 _ => .scalar (.float 8)

/-- Translation of `collect_fn_vars_impl`: depth-first union of the
accessed-variable sets over the call graph.  The Rust recursion carries no
visited set and no depth bound; the `fuel` argument makes the recursion
well-founded in the model, and theorems supply enough fuel through a
ranking hypothesis on the (acyclic) call graph. -/
def collect_fn_vars_impl (itm : Itm) : Nat → Nat → List Nat → List Nat
  | 0, _, vars => vars
  | fuel + 1, funcId, vars =>
    match itm.getFunc funcId with
    | none => vars
    | some func =>
      func.callees.foldl (fun acc call => collect_fn_vars_impl itm fuel call acc)
        (vars ++ func.accessedVars)

/-- Translation of `collect_fn_vars`. -/
def collect_fn_vars (itm : Itm) (fuel : Nat) (funcId : Nat) : List Nat :=
  collect_fn_vars_impl itm fuel funcId []

/-- Translation of `collect_entry_point_vars`.  The Rust code deduplicates
the collected ids through a `HashSet` and then iterates it; `dedup` is the
iteration order of that set and is constrained by hypotheses (no
duplicates, same membership) where a theorem needs them. -/
def collect_entry_point_vars (itm : Itm) (fuel : Nat)
    (dedup : List Nat → List Nat) (funcId : Nat) : List Variable :=
  (dedup (collect_fn_vars itm fuel funcId)).filterMap itm.getVar

/-- Translation of `collect_entry_point_specs`.  The Rust code iterates
`const_map.values()`; `constOrder` is that iteration order and is
constrained to be a permutation of the table where a theorem needs it. -/
def collect_entry_point_specs (itm : Itm)
    (constOrder : List (Nat × ConstantIntermediate)) : List Variable :=
  constOrder.filterMap (fun entry =>
    match entry.2.specId with
    | some specId =>
      let locator := Locator.specConstant specId
      let name := itm.getVarName locator
      some (.specConstant name specId entry.2.value.ty)
    | none => none)

/-- Translation of `collect_exec_modes`. -/
def collect_exec_modes (itm : Itm) (funcId : Nat) : List Nat :=
  itm.executionModeDeclrs.filterMap (fun declr =>
    if declr.funcId = funcId then some declr.executionMode else none)

/-- Partition of the variable list into samplers, sampled images and the
rest, as the first loop of `combine_img_samplers` does. -/
def combine_partition : List Variable →
    (List Variable × List Variable × List Variable)
  | [] => ([], [], [])
  | v :: rest =>
    let (samplers, imgs, outVars) := combine_partition rest
    match v.descTy with
    | some .sampler => (v :: samplers, imgs, outVars)
    | some .sampledImage => (samplers, v :: imgs, outVars)
    | _ => (samplers, imgs, v :: outVars)

/-- The matching test of the sampler loop of `combine_img_samplers`: the
image lives at the sampler binding point and has the same binding count. -/
def img_matches (samplerDescBind : DescriptorBinding) (samplerNbind : Nat)
    (v : Variable) : Bool :=
  decide (v.locator = Locator.descriptor samplerDescBind) &&
    decide (v.nbind = some samplerNbind)

/-- Fuse one matched sampled image with a sampler: the descriptor type
becomes `CombinedImageSampler` and the type becomes the sampled image of
the image type.  `none` is the `unreachable!()` panic of the Rust code
taken when the matched variable does not carry an image type. -/
def combine_one_img (samplerDescBind : DescriptorBinding) (samplerNbind : Nat) :
    Variable → Option Variable
  | .descriptor name _ _ ty _ =>
    match ty with
    | .image imgTy =>
      some (.descriptor name samplerDescBind .combinedImageSampler
        (.sampledImage ⟨imgTy⟩) samplerNbind)
    | _ => none
  | _ => none

/-- The sampler loop of `combine_img_samplers`, carrying the surviving
image list and the output accumulator. -/
def combine_loop : List Variable → List Variable → List Variable →
    Option (List Variable)
  | [], imgs, outVars => some (outVars ++ imgs)
  | samplerVar :: rest, imgs, outVars =>
    match samplerVar with
    | .descriptor name descBind descTy ty nbind =>
      let combined := imgs.filter (img_matches descBind nbind)
      let remaining := imgs.filter (fun v => !(img_matches descBind nbind v))
      if combined.isEmpty then
        combine_loop rest remaining
          (outVars ++ [.descriptor name descBind descTy ty nbind])
      else
        match combined.mapM (combine_one_img descBind nbind) with
        | none => none
        | some newVars => combine_loop rest remaining (outVars ++ newVars)
    | _ => none

/-- Translation of `combine_img_samplers`: merge sampled images and
samplers sharing a binding point and binding count.  `none` is the
`unreachable!()` panic of the Rust code, possible only when a variable
carrying the `SampledImage` descriptor type does not carry an image
type. -/
def combine_img_samplers (vars : List Variable) : Option (List Variable) :=
  let (samplers, imgs, outVars) := combine_partition vars
  combine_loop samplers imgs outVars

/-- Reflection configuration (`ReflectConfig`), without the blob. -/
structure ReflectConfig where
  refAllRscs : Bool
  combineImgSamplers : Bool
  specValues : List (Nat × ConstantValue)

/-- An entry-point record (`EntryPoint`). -/
structure EntryPoint where
  name : String
  execModel : Nat
  vars : List Variable
  execModes : List Nat

/-- Translation of `collect_entry_points`.  The Rust signature returns a
`Result` but no error is ever constructed on this path; the only non-value
outcome in the model is the fusion panic, surfaced as `none`.  `fuel`,
`dedup` and `constOrder` model the call-graph recursion depth and the two
hash-container iteration orders. -/
def collect_entry_points (itm : Itm) (cfg : ReflectConfig) (fuel : Nat)
    (dedup : List Nat → List Nat)
    (constOrder : List (Nat × ConstantIntermediate)) :
    Option (List EntryPoint) :=
  itm.entryPointDeclrs.mapM (fun declr =>
    let vars :=
      if cfg.refAllRscs then itm.vars
      else collect_entry_point_vars itm fuel dedup declr.funcId
    let fused := if cfg.combineImgSamplers then combine_img_samplers vars else some vars
    fused.map (fun vars =>
      let specs := collect_entry_point_specs itm constOrder
      { name := declr.name
        execModel := declr.execModel
        vars := vars ++ specs
        execModes := collect_exec_modes itm declr.funcId }))

/-- Translation of `build_spirv_binary` of `spirq-reflect/src/main.rs`.
The filesystem interactions are abstracted into outcome flags: whether the
path is a regular file, whether `File::open` succeeds, whether
`read_to_end` succeeds, and the bytes the file holds.  The alignment
check sits, as in the source, before `read_to_end`, on the freshly
created empty buffer. -/
def build_spirv_binary (isFile openOk readOk : Bool) (contents : List Nat) :
    Option (List Nat) :=
  if !isFile then none
  else
    let buf : List Nat := []
    if openOk then
      if buf.length % 4 ≠ 0 then none
      else if readOk then some contents
      else none
    else some buf

/-- Modelled from the spec: the access-mode derivation of §4.4,
written from the spec sentence: (false,false) gives ReadWrite,
(true,false) ReadOnly, (false,true) WriteOnly, (true,true) the
ACCESS_CONFLICT error. -/
def spec_access_mode (nonWritable nonReadable : Bool) : Except Error AccessType :=
  match nonWritable, nonReadable with
  | false, false => .ok .readWrite
  | true, false => .ok .readOnly
  | false, true => .ok .writeOnly
  | true, true => .error .accessConflict

/-- Shapes admitted by the UniformConstant rows of the classification
table of §4.4. -/
def is_uniform_constant_shape : Ty → Bool
  | .image _ => true
  | .sampler => true
  | .sampledImage _ => true
  | .subpassData _ => true
  | .accelStruct => true
  | _ => false

/-- Modelled from the spec: the descriptor-type classification table of
§4.4, written row by row from the spec table.  Inputs: the storage class,
whether the pointee carries the BufferBlock decoration, the
NonWritable/NonReadable decorations of the variable, the
InputAttachmentIndex decoration of the variable, and the pointee shape
after stripping one outer array.  Shapes outside the table (reachable
only when the hypotheses of the theorems are violated) are mapped to the
UNSUPPORTED_TY error. -/
def spec_desc_classification (storeCls : StorageClass)
    (pointeeHasBufferBlock nonWritable nonReadable : Bool)
    (inputAttmIdx : Option Nat) (strippedTy : Ty) : Except Error DescriptorType :=
  match storeCls with
  | .uniform =>
    if pointeeHasBufferBlock then
      (spec_access_mode nonWritable nonReadable).map (fun a => .storageBuffer a)
    else .ok .uniformBuffer
  | .storageBuffer =>
    (spec_access_mode nonWritable nonReadable).map (fun a => .storageBuffer a)
  | .uniformConstant =>
    match strippedTy with
    | .image imgTy =>
      match imgTy.unitFmt with
      | .color _ =>
        (spec_access_mode nonWritable nonReadable).map (fun a =>
          if imgTy.arng = ImageArrangement.imageBuffer then .storageTexelBuffer a
          else .storageImage a)
      | .sampled =>
        if imgTy.arng = ImageArrangement.imageBuffer then .ok .uniformTexelBuffer
        else .ok .sampledImage
      | .depth => .ok .sampledImage
    | .sampler => .ok .sampler
    | .sampledImage sampledImgTy =>
      if sampledImgTy.imgTy.arng = ImageArrangement.imageBuffer then .ok .uniformTexelBuffer
      else .ok .combinedImageSampler
    | .subpassData _ =>
      match inputAttmIdx with
      | some idx => .ok (.inputAttachment idx)
      | none => .error .missingDeco
    | .accelStruct => .ok .accelStruct
    | _ => .error .unsupportedTy
  | _ => .error .unsupportedTy

/-- Modelled from the spec: the folding semantics table of §4.4.
Unsigned operations act on 32-bit patterns with wrap-around; signed
operations reinterpret the patterns bit-for-bit, with SDiv and SRem
truncated and SMod Euclidean; arithmetic right shift and every unlisted
opcode give the UNSUPPORTED_SPEC error.  Divisor-zero and
shift-amount-overflow inputs are outside the table and excluded by the
theorem hypotheses. -/
def spec_fold_semantics (opcode : Nat) (a b : Nat) : Except Error ConstantValue :=
  if opcode = OP_SNEGATE then .ok (.i32 (bitsOfS32 (-(s32OfBits a))))
  else if opcode = OP_NOT then .ok (.u32 (2 ^ 32 - 1 - a % 2 ^ 32))
  else if opcode = OP_IADD then .ok (.u32 ((a + b) % 2 ^ 32))
  else if opcode = OP_ISUB then .ok (.u32 (bitsOfS32 ((a : Int) - (b : Int))))
  else if opcode = OP_IMUL then .ok (.u32 ((a * b) % 2 ^ 32))
  else if opcode = OP_UDIV then .ok (.u32 (a / b))
  else if opcode = OP_SDIV then
    .ok (.i32 (bitsOfS32 (Int.tdiv (s32OfBits a) (s32OfBits b))))
  else if opcode = OP_UMOD then .ok (.u32 (a % b))
  else if opcode = OP_SREM then
    .ok (.i32 (bitsOfS32 (Int.tmod (s32OfBits a) (s32OfBits b))))
  else if opcode = OP_SMOD then
    .ok (.i32 (bitsOfS32 (Int.emod (s32OfBits a) (s32OfBits b))))
  else if opcode = OP_SHIFT_RIGHT_LOGICAL then .ok (.u32 (a >>> b))
  else if opcode = OP_SHIFT_LEFT_LOGICAL then .ok (.u32 ((a <<< b) % 2 ^ 32))
  else if opcode = OP_BITWISE_OR then .ok (.u32 (a ||| b))
  else if opcode = OP_BITWISE_XOR then .ok (.u32 (a ^^^ b))
  else if opcode = OP_BITWISE_AND then .ok (.u32 (a &&& b))
  else .error .unsupportedSpec

/-- Function-call reachability over the reflected call graph: the
reflexive-transitive closure of the callee edges recorded in the function
map, rooted at an entry function. -/
inductive Reaches (itm : Itm) : Nat → Nat → Prop where
  | refl (f : Nat) : Reaches itm f f
  | step {f g c : Nat} {fi : FunctionIntermediate} (h : Reaches itm f g)
      (hf : itm.getFunc g = some fi) (hc : c ∈ fi.callees) : Reaches itm f c

/-- The function `g` accesses variable id `v` through a load, store or
atomic op (with access chains already resolved during body ingestion). -/
def accesses_var (itm : Itm) (g v : Nat) : Prop :=
  ∃ fi, itm.getFunc g = some fi ∧ v ∈ fi.accessedVars

/-- Variable id `v` is accessed by some function reachable from `entry`. -/
def reach_accesses (itm : Itm) (entry v : Nat) : Prop :=
  ∃ g, Reaches itm entry g ∧ accesses_var itm g v

/-- The call graph admits a ranking that strictly decreases along call
edges; this is the acyclicity SPIR-V guarantees (no recursion), which the
unguarded Rust recursion of `collect_fn_vars_impl` relies on. -/
def CallRanked (itm : Itm) (rank : Nat → Nat) : Prop :=
  ∀ f fi, itm.getFunc f = some fi → ∀ c ∈ fi.callees, rank c < rank f

/-- Sampler-descriptor test used by the fusion analysis. -/
def samplerD (v : Variable) : Bool := v.descTy = some DescriptorType.sampler

/-- Sampled-image-descriptor test used by the fusion analysis. -/
def imgD (v : Variable) : Bool := v.descTy = some DescriptorType.sampledImage

/-- The matching relation a sampler variable imposes on image variables
in the fusion loop; non-descriptor variables match nothing. -/
def matchOf (s : Variable) : Variable → Bool :=
  match s with
  | .descriptor _ descBind _ _ nbind => img_matches descBind nbind
  | _ => fun _ => false

/-- An intermediate with every table empty. -/
def emptyItm : Itm where
  entryPointDeclrs := []
  executionModeDeclrs := []
  vars := []
  nameMap := []
  decoMap := []
  tyMap := []
  varMap := []
  constMap := []
  ptrMap := []
  funcMap := []
  declrMap := []

/-- Concrete intermediate for the C1 counterexample: one entry point at
function 1, no functions, no recognised variables, and one outstanding
specialization constant with spec id 3. -/
def itmC1 : Itm :=
  { emptyItm with
    entryPointDeclrs := [⟨1, "main", 0⟩]
    constMap := [(5, ⟨.u32 0, some 3⟩)] }

/-- Concrete configuration with both options off. -/
def cfgOff : ReflectConfig := ⟨false, false, []⟩

/-- Concrete intermediate for the C5 counterexample: constants 1 and 2
hold the unsigned values 7 and 0. -/
def itmC5 : Itm :=
  { emptyItm with
    constMap := [(1, ⟨.u32 7, none⟩), (2, ⟨.u32 0, none⟩)] }

/-- Concrete intermediate for the C4 witness: constants 1 and 2 hold the
unsigned values 7 and 5. -/
def itmC4 : Itm :=
  { emptyItm with
    constMap := [(1, ⟨.u32 7, none⟩), (2, ⟨.u32 5, none⟩)] }

/-- Concrete intermediate for the C8 counterexample: type 1 is a matrix
type; struct type 2 has the single member type 1, and no decorations at
all (in particular neither a member Offset nor a MatrixStride). -/
def itmC8 : Itm :=
  { emptyItm with
    tyMap := [(1, .matrix ⟨⟨.float 4, 4⟩, 4, none, none⟩)] }

/-- Concrete sampler variable at (set 0, binding 1) for the C6
counterexample. -/
def varS1 : Variable := .descriptor (some "s1") ⟨0, 1⟩ .sampler .sampler 1

/-- Concrete sampler variable at (set 0, binding 0) for the C6
counterexample. -/
def varS2 : Variable := .descriptor (some "s2") ⟨0, 0⟩ .sampler .sampler 1

/-- Concrete image type used by the C6 counterexample. -/
def imgTyC6 : ImageType := ⟨some (.float 4), .sampled, .image2D⟩

/-- Concrete sampled-image variable at (set 0, binding 0) for the C6
counterexample. -/
def varI : Variable := .descriptor (some "i") ⟨0, 0⟩ .sampledImage (.image imgTyC6) 1

/-- The fused combined-image-sampler the C6 counterexample produces. -/
def varC : Variable :=
  .descriptor (some "i") ⟨0, 0⟩ .combinedImageSampler (.sampledImage ⟨imgTyC6⟩) 1

/-- Concrete intermediate for the C2/C3/C10 witnesses: pointer type 10
points at type 11, a 2D sampled image; variable 20 carries no
decorations. -/
def itmUC : Itm :=
  { emptyItm with
    ptrMap := [(10, 11)]
    tyMap := [(11, .image ⟨some (.float 4), .sampled, .image2D⟩)] }

/-- Concrete intermediate for the C10 counterexample: pointer type 10
points at type 11, a bare scalar, which no UniformConstant row of the
classification supports. -/
def itmC10 : Itm :=
  { emptyItm with
    ptrMap := [(10, 11)]
    tyMap := [(11, .scalar (.float 4))] }

/-- Concrete intermediate for the C3 witness: pointer type 10 points at
type 11, a storage (color-format) image; variable 20 carries both the
NonWritable and NonReadable decorations. -/
def itmC3 : Itm :=
  { emptyItm with
    ptrMap := [(10, 11)]
    tyMap := [(11, .image ⟨some (.float 4), .color 1, .image2D⟩)]
    decoMap := [((20, none, .nonWritable), []), ((20, none, .nonReadable), [])] }

/-- Concrete intermediate for the C1 witness: entry point at function 1,
which accesses variable id 7 and calls function 2, which accesses
variable id 8; variable ids 7 and 8 resolve to the two recognised
descriptor variables. -/
def itmW1 : Itm :=
  { emptyItm with
    entryPointDeclrs := [⟨1, "main", 0⟩]
    vars := [.descriptor none ⟨0, 0⟩ .uniformBuffer .void 1,
             .descriptor none ⟨0, 1⟩ .uniformBuffer .void 1]
    varMap := [(7, 0), (8, 1)]
    funcMap := [(1, ⟨[7], [2]⟩), (2, ⟨[8], []⟩)] }

/-- Concrete intermediate for the C8 witness: type 1 is a bare scalar;
pointer type 10 points at the unregistered type 2. -/
def itmC8W : Itm :=
  { emptyItm with
    tyMap := [(1, .scalar (.float 4))]
    ptrMap := [(10, 2)] }

/-! Theorems.  Shared lemmas come first; each claim has exactly one
theorem, preceded by a doc comment naming the claim. -/

theorem getDescAccess_eq (itm : Itm) (varId : Nat) :
    itm.getDescAccess varId =
      match itm.containsDeco varId none .nonWritable,
          itm.containsDeco varId none .nonReadable with
      | true, true => none
      | true, false => some .readOnly
      | false, true => some .writeOnly
      | false, false => some .readWrite := rfl

theorem populate_one_var_classify (itm : Itm) (op : OpVariable) (tyId : Nat) (ty : Ty)
    (h1 : itm.accessChain op.tyId = some tyId)
    (h2 : alookup tyId itm.tyMap = some ty)
    (hsc : op.storeCls = .uniform ∨ op.storeCls = .storageBuffer ∨
      op.storeCls = .uniformConstant) :
    populate_one_var itm op =
      match spec_desc_classification op.storeCls (itm.containsDeco tyId none .bufferBlock)
          (itm.containsDeco op.varId none .nonWritable)
          (itm.containsDeco op.varId none .nonReadable)
          (itm.getDecoU32 op.varId .inputAttachmentIndex)
          (extract_proto_ty ty).2 with
      | .ok descTy =>
        .ok (some (.descriptor (itm.getName op.varId) (itm.getVarDescBindOrDefault op.varId)
          descTy (extract_proto_ty ty).2 (extract_proto_ty ty).1))
      | .error e => .error e := by
  rcases hpt : extract_proto_ty ty with ⟨nb, ty2⟩
  rcases hsc with h | h | h
  · simp only [populate_one_var, h1, h2, h, hpt, spec_desc_classification]
    cases hbb : itm.containsDeco tyId none .bufferBlock <;>
      cases hnw : itm.containsDeco op.varId none .nonWritable <;>
        cases hnr : itm.containsDeco op.varId none .nonReadable <;>
          simp [getDescAccess_eq, hnw, hnr, spec_access_mode, Except.map]
  · simp only [populate_one_var, h1, h2, h, hpt, spec_desc_classification]
    cases hnw : itm.containsDeco op.varId none .nonWritable <;>
      cases hnr : itm.containsDeco op.varId none .nonReadable <;>
        simp [getDescAccess_eq, hnw, hnr, spec_access_mode, Except.map]
  · simp only [populate_one_var, h1, h2, h, hpt, spec_desc_classification]
    cases ty2 with
    | image imgTy =>
      obtain ⟨isc, fmt, arng⟩ := imgTy
      cases fmt with
      | color f =>
        cases hnw : itm.containsDeco op.varId none .nonWritable <;>
          cases hnr : itm.containsDeco op.varId none .nonReadable <;>
            cases arng <;> simp [getDescAccess_eq, hnw, hnr, spec_access_mode, Except.map]
      | sampled => cases arng <;> simp
      | depth => simp
    | sampledImage s =>
      obtain ⟨⟨isc, fmt, arng⟩⟩ := s
      cases arng <;> simp
    | subpassData s =>
      cases hidx : itm.getDecoU32 op.varId .inputAttachmentIndex <;> simp [hidx]
    | void => simp
    | scalar s => simp
    | vector v => simp
    | matrix m => simp
    | sampler => simp
    | array p n st => simp
    | struct nm mem => simp
    | accelStruct => simp

/-- C2: for a variable in storage class Uniform, StorageBuffer or
UniformConstant whose pointer and pointee types resolve, the emitted
descriptor is exactly the one given by the classification table of the
spec applied to the storage class, the BufferBlock decoration of the
pointee, the NonWritable/NonReadable decorations and InputAttachmentIndex
decoration of the variable, and the pointee shape after stripping one
outer array (which also supplies the binding count). -/
theorem claim_C2 (itm : Itm) (op : OpVariable) (tyId : Nat) (ty : Ty)
    (h1 : itm.accessChain op.tyId = some tyId)
    (h2 : alookup tyId itm.tyMap = some ty)
    (hsc : op.storeCls = .uniform ∨ op.storeCls = .storageBuffer ∨
      op.storeCls = .uniformConstant) :
    populate_one_var itm op =
      match spec_desc_classification op.storeCls (itm.containsDeco tyId none .bufferBlock)
          (itm.containsDeco op.varId none .nonWritable)
          (itm.containsDeco op.varId none .nonReadable)
          (itm.getDecoU32 op.varId .inputAttachmentIndex)
          (extract_proto_ty ty).2 with
      | .ok descTy =>
        .ok (some (.descriptor (itm.getName op.varId) (itm.getVarDescBindOrDefault op.varId)
          descTy (extract_proto_ty ty).2 (extract_proto_ty ty).1))
      | .error e => .error e :=
  populate_one_var_classify itm op tyId ty h1 h2 hsc

/-- Witness for C2 at a concrete UniformConstant 2D sampled image: the
classification yields a SampledImage descriptor at the default binding. -/
theorem claim_C2_witness :
    populate_one_var itmUC ⟨10, 20, .uniformConstant⟩ =
      match spec_desc_classification .uniformConstant
          (itmUC.containsDeco 11 none .bufferBlock)
          (itmUC.containsDeco 20 none .nonWritable)
          (itmUC.containsDeco 20 none .nonReadable)
          (itmUC.getDecoU32 20 .inputAttachmentIndex)
          (extract_proto_ty (.image ⟨some (.float 4), .sampled, .image2D⟩)).2 with
      | .ok descTy =>
        .ok (some (.descriptor (itmUC.getName 20) (itmUC.getVarDescBindOrDefault 20)
          descTy (extract_proto_ty (.image ⟨some (.float 4), .sampled, .image2D⟩)).2
          (extract_proto_ty (.image ⟨some (.float 4), .sampled, .image2D⟩)).1))
      | .error e => .error e :=
  claim_C2 itmUC ⟨10, 20, .uniformConstant⟩ 11 (.image ⟨some (.float 4), .sampled, .image2D⟩)
    rfl rfl (Or.inr (Or.inr rfl))

/-- C3: for a variable classified into the storage-buffer, storage-image
or storage-texel-buffer families, the access type is derived from the
NonWritable/NonReadable decorations on the variable id by the spec table
(neither: ReadWrite; NonWritable only: ReadOnly; NonReadable only:
WriteOnly), and the presence of both makes reflection fail with the
ACCESS_CONFLICT error. -/
theorem claim_C3 (itm : Itm) (op : OpVariable) (tyId : Nat) (ty : Ty)
    (h1 : itm.accessChain op.tyId = some tyId)
    (h2 : alookup tyId itm.tyMap = some ty)
    (hsc : op.storeCls = .uniform ∨ op.storeCls = .storageBuffer ∨
      op.storeCls = .uniformConstant) :
    (∀ n b t nb a,
      populate_one_var itm op = .ok (some (.descriptor n b (.storageBuffer a) t nb)) →
      spec_access_mode (itm.containsDeco op.varId none .nonWritable)
        (itm.containsDeco op.varId none .nonReadable) = .ok a) ∧
    (∀ n b t nb a,
      populate_one_var itm op = .ok (some (.descriptor n b (.storageImage a) t nb)) →
      spec_access_mode (itm.containsDeco op.varId none .nonWritable)
        (itm.containsDeco op.varId none .nonReadable) = .ok a) ∧
    (∀ n b t nb a,
      populate_one_var itm op = .ok (some (.descriptor n b (.storageTexelBuffer a) t nb)) →
      spec_access_mode (itm.containsDeco op.varId none .nonWritable)
        (itm.containsDeco op.varId none .nonReadable) = .ok a) ∧
    (((op.storeCls = .uniform ∧ itm.containsDeco tyId none .bufferBlock = true) ∨
        op.storeCls = .storageBuffer ∨
        (op.storeCls = .uniformConstant ∧
          ∃ it f, (extract_proto_ty ty).2 = .image it ∧ it.unitFmt = .color f)) →
      itm.containsDeco op.varId none .nonWritable = true →
      itm.containsDeco op.varId none .nonReadable = true →
      populate_one_var itm op = .error .accessConflict) := by
  rw [populate_one_var_classify itm op tyId ty h1 h2 hsc]
  rcases hpt : extract_proto_ty ty with ⟨nb0, ty2⟩
  refine ⟨?_, ?_, ?_, ?_⟩
  · intro n b t nb a hyp
    rcases hsc with h | h | h <;> rw [h] at hyp <;>
      simp only [spec_desc_classification] at hyp
    · cases hbb : itm.containsDeco tyId none .bufferBlock <;> rw [hbb] at hyp <;>
        cases hsa : spec_access_mode (itm.containsDeco op.varId none .nonWritable)
          (itm.containsDeco op.varId none .nonReadable) <;>
          simp_all [Except.map]
    · cases hsa : spec_access_mode (itm.containsDeco op.varId none .nonWritable)
        (itm.containsDeco op.varId none .nonReadable) <;> simp_all [Except.map]
    · cases ty2 with
      | image imgTy =>
        obtain ⟨isc, fmt, arng⟩ := imgTy
        cases fmt <;>
          cases hsa : spec_access_mode (itm.containsDeco op.varId none .nonWritable)
            (itm.containsDeco op.varId none .nonReadable) <;>
            cases arng <;> simp_all [Except.map]
      | sampledImage s =>
        obtain ⟨⟨isc, fmt, arng⟩⟩ := s
        cases arng <;> simp_all
      | subpassData s =>
        cases hidx : itm.getDecoU32 op.varId .inputAttachmentIndex <;> simp_all
      | void => simp_all
      | scalar s => simp_all
      | vector v => simp_all
      | matrix m => simp_all
      | sampler => simp_all
      | array p nn st => simp_all
      | struct nm mem => simp_all
      | accelStruct => simp_all
  · intro n b t nb a hyp
    rcases hsc with h | h | h <;> rw [h] at hyp <;>
      simp only [spec_desc_classification] at hyp
    · cases hbb : itm.containsDeco tyId none .bufferBlock <;> rw [hbb] at hyp <;>
        cases hsa : spec_access_mode (itm.containsDeco op.varId none .nonWritable)
          (itm.containsDeco op.varId none .nonReadable) <;>
          simp_all [Except.map]
    · cases hsa : spec_access_mode (itm.containsDeco op.varId none .nonWritable)
        (itm.containsDeco op.varId none .nonReadable) <;> simp_all [Except.map]
    · cases ty2 with
      | image imgTy =>
        obtain ⟨isc, fmt, arng⟩ := imgTy
        cases fmt <;>
          cases hsa : spec_access_mode (itm.containsDeco op.varId none .nonWritable)
            (itm.containsDeco op.varId none .nonReadable) <;>
            cases arng <;> simp_all [Except.map]
      | sampledImage s =>
        obtain ⟨⟨isc, fmt, arng⟩⟩ := s
        cases arng <;> simp_all
      | subpassData s =>
        cases hidx : itm.getDecoU32 op.varId .inputAttachmentIndex <;> simp_all
      | void => simp_all
      | scalar s => simp_all
      | vector v => simp_all
      | matrix m => simp_all
      | sampler => simp_all
      | array p nn st => simp_all
      | struct nm mem => simp_all
      | accelStruct => simp_all
  · intro n b t nb a hyp
    rcases hsc with h | h | h <;> rw [h] at hyp <;>
      simp only [spec_desc_classification] at hyp
    · cases hbb : itm.containsDeco tyId none .bufferBlock <;> rw [hbb] at hyp <;>
        cases hsa : spec_access_mode (itm.containsDeco op.varId none .nonWritable)
          (itm.containsDeco op.varId none .nonReadable) <;>
          simp_all [Except.map]
    · cases hsa : spec_access_mode (itm.containsDeco op.varId none .nonWritable)
        (itm.containsDeco op.varId none .nonReadable) <;> simp_all [Except.map]
    · cases ty2 with
      | image imgTy =>
        obtain ⟨isc, fmt, arng⟩ := imgTy
        cases fmt <;>
          cases hsa : spec_access_mode (itm.containsDeco op.varId none .nonWritable)
            (itm.containsDeco op.varId none .nonReadable) <;>
            cases arng <;> simp_all [Except.map]
      | sampledImage s =>
        obtain ⟨⟨isc, fmt, arng⟩⟩ := s
        cases arng <;> simp_all
      | subpassData s =>
        cases hidx : itm.getDecoU32 op.varId .inputAttachmentIndex <;> simp_all
      | void => simp_all
      | scalar s => simp_all
      | vector v => simp_all
      | matrix m => simp_all
      | sampler => simp_all
      | array p nn st => simp_all
      | struct nm mem => simp_all
      | accelStruct => simp_all
  · intro hfam hnw hnr
    rcases hfam with ⟨h, hbb⟩ | h | ⟨h, it, f, hshape, hfmt⟩ <;> rw [h] <;>
      simp only [spec_desc_classification]
    · rw [hbb, hnw, hnr]; simp [spec_access_mode, Except.map]
    · rw [hnw, hnr]; simp [spec_access_mode, Except.map]
    · have hshape2 : ty2 = .image it := hshape
      subst hshape2
      obtain ⟨isc, fmt, arng⟩ := it
      have hfmt2 : fmt = .color f := hfmt
      subst hfmt2
      simp [hnw, hnr, spec_access_mode, Except.map]

/-- Witness for C3 at a concrete storage image carrying both NonWritable
and NonReadable: reflection fails with ACCESS_CONFLICT. -/
theorem claim_C3_witness :
    populate_one_var itmC3 ⟨10, 20, .uniformConstant⟩ = .error .accessConflict :=
  (claim_C3 itmC3 ⟨10, 20, .uniformConstant⟩ 11
      (.image ⟨some (.float 4), .color 1, .image2D⟩) rfl rfl
      (Or.inr (Or.inr rfl))).2.2.2
    (Or.inr (Or.inr ⟨rfl, ⟨some (.float 4), .color 1, .image2D⟩, 1, rfl, rfl⟩))
    rfl rfl

/-- C9: the CLI blob loader `build_spirv_binary` accepts a readable
3-byte file: the alignment check sits before the read, on a freshly
created empty buffer, so it can never fire, contradicting the claim that
files whose length is not a multiple of 4 yield None. -/
theorem claim_C9 :
    build_spirv_binary true true true [1, 2, 3] = some [1, 2, 3] ∧
      ([1, 2, 3] : List Nat).length % 4 ≠ 0 :=
  ⟨rfl, by decide⟩

/-- Counterexample for C10: a UniformConstant variable with no Binding
decoration whose pointee is a bare scalar is not emitted at (0, 0); it
raises UNSUPPORTED_TY. -/
theorem claim_C10_counterexample :
    itmC10.getDecoU32 20 .binding = none ∧
    populate_one_var itmC10 ⟨10, 20, .uniformConstant⟩ = .error .unsupportedTy :=
  ⟨rfl, rfl⟩

/-- C10 (amended): a Binding decoration without a DescriptorSet
decoration defaults the set to 0; an absent Binding decoration defaults
the pair to (0, 0); for the three descriptor storage classes the variable
is never silently skipped, and whenever a variable without a Binding
decoration is emitted it is emitted as a Descriptor at (0, 0) — though
classification may still fail for reasons unrelated to the binding
decorations. -/
theorem claim_C10_amended :
    (∀ (itm : Itm) (varId b : Nat), itm.getDecoU32 varId .binding = some b →
      itm.getDecoU32 varId .descriptorSet = none →
      itm.getVarDescBindOrDefault varId = ⟨0, b⟩) ∧
    (∀ (itm : Itm) (varId : Nat), itm.getDecoU32 varId .binding = none →
      itm.getVarDescBindOrDefault varId = ⟨0, 0⟩) ∧
    (∀ (itm : Itm) (op : OpVariable) (tyId : Nat) (ty : Ty),
      itm.accessChain op.tyId = some tyId → alookup tyId itm.tyMap = some ty →
      (op.storeCls = .uniform ∨ op.storeCls = .storageBuffer ∨
        op.storeCls = .uniformConstant) →
      populate_one_var itm op ≠ .ok none ∧
      (∀ v, populate_one_var itm op = .ok (some v) →
        itm.getDecoU32 op.varId .binding = none →
        ∃ n dt t nb2, v = .descriptor n ⟨0, 0⟩ dt t nb2)) := by
  refine ⟨?_, ?_, ?_⟩
  · intro itm varId b hbind hset
    simp [Itm.getVarDescBindOrDefault, Itm.getVarDescBind, hbind, hset]
  · intro itm varId hbind
    simp [Itm.getVarDescBindOrDefault, Itm.getVarDescBind, hbind]
  · intro itm op tyId ty h1 h2 hsc
    rw [populate_one_var_classify itm op tyId ty h1 h2 hsc]
    cases hcl : spec_desc_classification op.storeCls (itm.containsDeco tyId none .bufferBlock)
      (itm.containsDeco op.varId none .nonWritable)
      (itm.containsDeco op.varId none .nonReadable)
      (itm.getDecoU32 op.varId .inputAttachmentIndex) (extract_proto_ty ty).2 with
    | error e => exact ⟨by simp, by simp⟩
    | ok descTy =>
      refine ⟨by simp, ?_⟩
      intro v hv hbind
      have hdef : itm.getVarDescBindOrDefault op.varId = ⟨0, 0⟩ := by
        simp [Itm.getVarDescBindOrDefault, Itm.getVarDescBind, hbind]
      simp only [Except.ok.injEq, Option.some.injEq] at hv
      exact ⟨itm.getName op.varId, descTy, (extract_proto_ty ty).2, (extract_proto_ty ty).1,
        by rw [← hv, hdef]⟩

/-- Witness for C10 (amended) at a concrete undecorated UniformConstant
sampled image: the default binding is (0, 0) and the variable is not
silently skipped. -/
theorem claim_C10_amended_witness :
    itmUC.getVarDescBindOrDefault 20 = ⟨0, 0⟩ ∧
    populate_one_var itmUC ⟨10, 20, .uniformConstant⟩ ≠ .ok none :=
  ⟨claim_C10_amended.2.1 itmUC 20 rfl,
   (claim_C10_amended.2.2 itmUC ⟨10, 20, .uniformConstant⟩ 11
      (.image ⟨some (.float 4), .sampled, .image2D⟩) rfl rfl (Or.inr (Or.inr rfl))).1⟩

theorem spec_bin_u32_panic (itm : Itm) (aId bId : Nat) (f : Nat → Nat → Option Nat)
    (h : spec_bin_u32 itm aId bId f = .panic) :
    ∃ ca a cb b, itm.getConst aId = .ok ca ∧ ca.value.to_u32 = .ok a ∧
      itm.getConst bId = .ok cb ∧ cb.value.to_u32 = .ok b ∧ f a b = none := by
  unfold spec_bin_u32 at h
  cases hca : itm.getConst aId with
  | error e => simp [hca] at h
  | ok ca =>
    simp only [hca] at h
    cases hav : ca.value.to_u32 with
    | error e => simp [hav] at h
    | ok a =>
      simp only [hav] at h
      cases hcb : itm.getConst bId with
      | error e => simp [hcb] at h
      | ok cb =>
        simp only [hcb] at h
        cases hbv : cb.value.to_u32 with
        | error e => simp [hbv] at h
        | ok b =>
          simp only [hbv] at h
          cases hf : f a b with
          | none => exact ⟨ca, a, cb, b, rfl, hav, rfl, hbv, hf⟩
          | some v => simp [hf] at h

theorem spec_bin_s32_panic (itm : Itm) (aId bId : Nat) (f : Int → Int → Option Int)
    (h : spec_bin_s32 itm aId bId f = .panic) :
    ∃ ca a cb b, itm.getConst aId = .ok ca ∧ ca.value.to_s32 = .ok a ∧
      itm.getConst bId = .ok cb ∧ cb.value.to_s32 = .ok b ∧ f a b = none := by
  unfold spec_bin_s32 at h
  cases hca : itm.getConst aId with
  | error e => simp [hca] at h
  | ok ca =>
    simp only [hca] at h
    cases hav : ca.value.to_s32 with
    | error e => simp [hav] at h
    | ok a =>
      simp only [hav] at h
      cases hcb : itm.getConst bId with
      | error e => simp [hcb] at h
      | ok cb =>
        simp only [hcb] at h
        cases hbv : cb.value.to_s32 with
        | error e => simp [hbv] at h
        | ok b =>
          simp only [hbv] at h
          cases hf : f a b with
          | none => exact ⟨ca, a, cb, b, rfl, hav, rfl, hbv, hf⟩
          | some v => simp [hf] at h

/-- C4: for registered 32-bit integer operand constants, folding an
OpSpecConstantOp computes exactly the semantics of the spec table:
unsigned-32 arithmetic with wrap-around for IAdd, ISub, IMul, UDiv,
UMod, the logical shifts, the bitwise operations and Not; bit-for-bit
signed reinterpretation for SNegate, SDiv, SRem (truncated) and SMod
(Euclidean); and the UNSUPPORTED_SPEC error for ShiftRightArithmetic and
every other unlisted opcode.  Zero divisors and shift amounts of 32 or
more are outside the spec table and excluded by hypothesis. -/
theorem claim_C4 (itm : Itm) (opcode aId bId : Nat) (ca cb : ConstantIntermediate)
    (a b : Nat)
    (ha : itm.getConst aId = .ok ca)
    (hb : itm.getConst bId = .ok cb)
    (hav : ca.value = .i32 a ∨ ca.value = .u32 a)
    (hbv : cb.value = .i32 b ∨ cb.value = .u32 b)
    (hdivU : opcode = OP_UDIV ∨ opcode = OP_UMOD → b ≠ 0)
    (hdivS : opcode = OP_SDIV ∨ opcode = OP_SREM ∨ opcode = OP_SMOD →
      s32OfBits b ≠ 0)
    (hshift : opcode = OP_SHIFT_RIGHT_LOGICAL ∨ opcode = OP_SHIFT_LEFT_LOGICAL →
      b < 32) :
    fold_spec_const_op itm opcode aId bId =
      match spec_fold_semantics opcode a b with
      | .ok v => .registered ⟨v, none⟩
      | .error e => .err e := by
  have ha32 : ca.value.to_u32 = .ok a := by
    rcases hav with h | h <;> simp [h, ConstantValue.to_u32]
  have hb32 : cb.value.to_u32 = .ok b := by
    rcases hbv with h | h <;> simp [h, ConstantValue.to_u32]
  have has : ca.value.to_s32 = .ok (s32OfBits a) := by
    rcases hav with h | h <;> simp [h, ConstantValue.to_s32]
  have hbs : cb.value.to_s32 = .ok (s32OfBits b) := by
    rcases hbv with h | h <;> simp [h, ConstantValue.to_s32]
  by_cases h1 : opcode = OP_SNEGATE
  · subst h1
    simp [fold_spec_const_op, spec_fold_semantics, OP_SNEGATE, OP_IADD, OP_ISUB, OP_IMUL, OP_UDIV, OP_SDIV, OP_UMOD, OP_SREM, OP_SMOD, OP_SHIFT_RIGHT_LOGICAL, OP_SHIFT_RIGHT_ARITHMETIC, OP_SHIFT_LEFT_LOGICAL, OP_BITWISE_OR, OP_BITWISE_XOR, OP_BITWISE_AND, OP_NOT, ha, has]
  by_cases h2 : opcode = OP_NOT
  · subst h2
    simp [fold_spec_const_op, spec_fold_semantics, OP_SNEGATE, OP_IADD, OP_ISUB, OP_IMUL, OP_UDIV, OP_SDIV, OP_UMOD, OP_SREM, OP_SMOD, OP_SHIFT_RIGHT_LOGICAL, OP_SHIFT_RIGHT_ARITHMETIC, OP_SHIFT_LEFT_LOGICAL, OP_BITWISE_OR, OP_BITWISE_XOR, OP_BITWISE_AND, OP_NOT, ha, ha32]
  by_cases h3 : opcode = OP_IADD
  · subst h3
    simp [fold_spec_const_op, spec_fold_semantics, OP_SNEGATE, OP_IADD, OP_ISUB, OP_IMUL, OP_UDIV, OP_SDIV, OP_UMOD, OP_SREM, OP_SMOD, OP_SHIFT_RIGHT_LOGICAL, OP_SHIFT_RIGHT_ARITHMETIC, OP_SHIFT_LEFT_LOGICAL, OP_BITWISE_OR, OP_BITWISE_XOR, OP_BITWISE_AND, OP_NOT, spec_bin_u32, ha, hb, ha32, hb32]
  by_cases h4 : opcode = OP_ISUB
  · subst h4
    simp [fold_spec_const_op, spec_fold_semantics, OP_SNEGATE, OP_IADD, OP_ISUB, OP_IMUL, OP_UDIV, OP_SDIV, OP_UMOD, OP_SREM, OP_SMOD, OP_SHIFT_RIGHT_LOGICAL, OP_SHIFT_RIGHT_ARITHMETIC, OP_SHIFT_LEFT_LOGICAL, OP_BITWISE_OR, OP_BITWISE_XOR, OP_BITWISE_AND, OP_NOT, spec_bin_u32, ha, hb, ha32, hb32]
  by_cases h5 : opcode = OP_IMUL
  · subst h5
    simp [fold_spec_const_op, spec_fold_semantics, OP_SNEGATE, OP_IADD, OP_ISUB, OP_IMUL, OP_UDIV, OP_SDIV, OP_UMOD, OP_SREM, OP_SMOD, OP_SHIFT_RIGHT_LOGICAL, OP_SHIFT_RIGHT_ARITHMETIC, OP_SHIFT_LEFT_LOGICAL, OP_BITWISE_OR, OP_BITWISE_XOR, OP_BITWISE_AND, OP_NOT, spec_bin_u32, ha, hb, ha32, hb32]
  by_cases h6 : opcode = OP_UDIV
  · subst h6
    have hbne := hdivU (Or.inl rfl)
    simp [fold_spec_const_op, spec_fold_semantics, OP_SNEGATE, OP_IADD, OP_ISUB, OP_IMUL, OP_UDIV, OP_SDIV, OP_UMOD, OP_SREM, OP_SMOD, OP_SHIFT_RIGHT_LOGICAL, OP_SHIFT_RIGHT_ARITHMETIC, OP_SHIFT_LEFT_LOGICAL, OP_BITWISE_OR, OP_BITWISE_XOR, OP_BITWISE_AND, OP_NOT, spec_bin_u32, ha, hb, ha32, hb32, hbne]
  by_cases h7 : opcode = OP_SDIV
  · subst h7
    have hbne := hdivS (Or.inl rfl)
    simp [fold_spec_const_op, spec_fold_semantics, OP_SNEGATE, OP_IADD, OP_ISUB, OP_IMUL, OP_UDIV, OP_SDIV, OP_UMOD, OP_SREM, OP_SMOD, OP_SHIFT_RIGHT_LOGICAL, OP_SHIFT_RIGHT_ARITHMETIC, OP_SHIFT_LEFT_LOGICAL, OP_BITWISE_OR, OP_BITWISE_XOR, OP_BITWISE_AND, OP_NOT, spec_bin_s32, ha, hb, has, hbs, hbne]
  by_cases h8 : opcode = OP_UMOD
  · subst h8
    have hbne := hdivU (Or.inr rfl)
    simp [fold_spec_const_op, spec_fold_semantics, OP_SNEGATE, OP_IADD, OP_ISUB, OP_IMUL, OP_UDIV, OP_SDIV, OP_UMOD, OP_SREM, OP_SMOD, OP_SHIFT_RIGHT_LOGICAL, OP_SHIFT_RIGHT_ARITHMETIC, OP_SHIFT_LEFT_LOGICAL, OP_BITWISE_OR, OP_BITWISE_XOR, OP_BITWISE_AND, OP_NOT, spec_bin_u32, ha, hb, ha32, hb32, hbne]
  by_cases h9 : opcode = OP_SREM
  · subst h9
    have hbne := hdivS (Or.inr (Or.inl rfl))
    simp [fold_spec_const_op, spec_fold_semantics, OP_SNEGATE, OP_IADD, OP_ISUB, OP_IMUL, OP_UDIV, OP_SDIV, OP_UMOD, OP_SREM, OP_SMOD, OP_SHIFT_RIGHT_LOGICAL, OP_SHIFT_RIGHT_ARITHMETIC, OP_SHIFT_LEFT_LOGICAL, OP_BITWISE_OR, OP_BITWISE_XOR, OP_BITWISE_AND, OP_NOT, spec_bin_s32, ha, hb, has, hbs, hbne]
  by_cases h10 : opcode = OP_SMOD
  · subst h10
    have hbne := hdivS (Or.inr (Or.inr rfl))
    simp [fold_spec_const_op, spec_fold_semantics, OP_SNEGATE, OP_IADD, OP_ISUB, OP_IMUL, OP_UDIV, OP_SDIV, OP_UMOD, OP_SREM, OP_SMOD, OP_SHIFT_RIGHT_LOGICAL, OP_SHIFT_RIGHT_ARITHMETIC, OP_SHIFT_LEFT_LOGICAL, OP_BITWISE_OR, OP_BITWISE_XOR, OP_BITWISE_AND, OP_NOT, spec_bin_s32, ha, hb, has, hbs, hbne]
  by_cases h11 : opcode = OP_SHIFT_RIGHT_LOGICAL
  · subst h11
    have hlt := hshift (Or.inl rfl)
    simp [fold_spec_const_op, spec_fold_semantics, OP_SNEGATE, OP_IADD, OP_ISUB, OP_IMUL, OP_UDIV, OP_SDIV, OP_UMOD, OP_SREM, OP_SMOD, OP_SHIFT_RIGHT_LOGICAL, OP_SHIFT_RIGHT_ARITHMETIC, OP_SHIFT_LEFT_LOGICAL, OP_BITWISE_OR, OP_BITWISE_XOR, OP_BITWISE_AND, OP_NOT, spec_bin_u32, ha, hb, ha32, hb32,
      Nat.mod_eq_of_lt hlt]
  by_cases h12 : opcode = OP_SHIFT_LEFT_LOGICAL
  · subst h12
    have hlt := hshift (Or.inr rfl)
    simp [fold_spec_const_op, spec_fold_semantics, OP_SNEGATE, OP_IADD, OP_ISUB, OP_IMUL, OP_UDIV, OP_SDIV, OP_UMOD, OP_SREM, OP_SMOD, OP_SHIFT_RIGHT_LOGICAL, OP_SHIFT_RIGHT_ARITHMETIC, OP_SHIFT_LEFT_LOGICAL, OP_BITWISE_OR, OP_BITWISE_XOR, OP_BITWISE_AND, OP_NOT, spec_bin_u32, ha, hb, ha32, hb32,
      Nat.mod_eq_of_lt hlt]
  by_cases h13 : opcode = OP_BITWISE_OR
  · subst h13
    simp [fold_spec_const_op, spec_fold_semantics, OP_SNEGATE, OP_IADD, OP_ISUB, OP_IMUL, OP_UDIV, OP_SDIV, OP_UMOD, OP_SREM, OP_SMOD, OP_SHIFT_RIGHT_LOGICAL, OP_SHIFT_RIGHT_ARITHMETIC, OP_SHIFT_LEFT_LOGICAL, OP_BITWISE_OR, OP_BITWISE_XOR, OP_BITWISE_AND, OP_NOT, spec_bin_u32, ha, hb, ha32, hb32]
  by_cases h14 : opcode = OP_BITWISE_XOR
  · subst h14
    simp [fold_spec_const_op, spec_fold_semantics, OP_SNEGATE, OP_IADD, OP_ISUB, OP_IMUL, OP_UDIV, OP_SDIV, OP_UMOD, OP_SREM, OP_SMOD, OP_SHIFT_RIGHT_LOGICAL, OP_SHIFT_RIGHT_ARITHMETIC, OP_SHIFT_LEFT_LOGICAL, OP_BITWISE_OR, OP_BITWISE_XOR, OP_BITWISE_AND, OP_NOT, spec_bin_u32, ha, hb, ha32, hb32]
  by_cases h15 : opcode = OP_BITWISE_AND
  · subst h15
    simp [fold_spec_const_op, spec_fold_semantics, OP_SNEGATE, OP_IADD, OP_ISUB, OP_IMUL, OP_UDIV, OP_SDIV, OP_UMOD, OP_SREM, OP_SMOD, OP_SHIFT_RIGHT_LOGICAL, OP_SHIFT_RIGHT_ARITHMETIC, OP_SHIFT_LEFT_LOGICAL, OP_BITWISE_OR, OP_BITWISE_XOR, OP_BITWISE_AND, OP_NOT, spec_bin_u32, ha, hb, ha32, hb32]
  simp [fold_spec_const_op, spec_fold_semantics, h1, h2, h3, h4, h5, h6, h7, h8, h9, h10,
    h11, h12, h13, h14, h15]

/-- Witness for C4 at IAdd over the registered constants 7 and 5. -/
theorem claim_C4_witness :
    fold_spec_const_op itmC4 OP_IADD 1 2 =
      match spec_fold_semantics OP_IADD 7 5 with
      | .ok v => .registered ⟨v, none⟩
      | .error e => .err e :=
  claim_C4 itmC4 OP_IADD 1 2 ⟨.u32 7, none⟩ ⟨.u32 5, none⟩ 7 5 rfl rfl
    (Or.inr rfl) (Or.inr rfl) (by decide) (by decide) (by decide)

/-- Counterexample for C5: folding UDiv over registered constants 7 and 0
panics (the Rust `overflowing_div` aborts on a zero divisor), so the
folder is not total. -/
theorem claim_C5_counterexample :
    populate_one_spec_const_op itmC5 9 OP_UDIV 1 2 = .panic := rfl

/-- C5 (amended): folding an OpSpecConstantOp either registers a constant
or returns a typed error, except that UDiv, SDiv, UMod, SRem and SMod
panic when their divisor operand is zero; every panic arises that way. -/
theorem claim_C5_amended (itm : Itm) (specConstId opcode aId bId : Nat)
    (h : populate_one_spec_const_op itm specConstId opcode aId bId = .panic) :
    ((opcode = OP_UDIV ∨ opcode = OP_UMOD) ∧
      ∃ cb, itm.getConst bId = .ok cb ∧ cb.value.to_u32 = .ok 0) ∨
    ((opcode = OP_SDIV ∨ opcode = OP_SREM ∨ opcode = OP_SMOD) ∧
      ∃ cb, itm.getConst bId = .ok cb ∧ cb.value.to_s32 = .ok 0) := by
  have hf : fold_spec_const_op itm opcode aId bId = .panic := by
    unfold populate_one_spec_const_op at h
    cases hf : fold_spec_const_op itm opcode aId bId with
    | registered c =>
      simp only [hf] at h
      by_cases hc : (alookup specConstId itm.constMap).isSome <;> simp [hc] at h
    | err e => simp [hf] at h
    | panic => rfl
  by_cases h1 : opcode = OP_SNEGATE
  · subst h1
    simp [fold_spec_const_op, OP_SNEGATE, OP_IADD, OP_ISUB, OP_IMUL, OP_UDIV, OP_SDIV, OP_UMOD, OP_SREM, OP_SMOD, OP_SHIFT_RIGHT_LOGICAL, OP_SHIFT_RIGHT_ARITHMETIC, OP_SHIFT_LEFT_LOGICAL, OP_BITWISE_OR, OP_BITWISE_XOR, OP_BITWISE_AND, OP_NOT] at hf
    cases hca : itm.getConst aId with
    | error e => simp [hca] at hf
    | ok ca =>
      simp only [hca] at hf
      cases hav : ca.value.to_s32 with
      | error e => simp [hav] at hf
      | ok a => simp [hav] at hf
  by_cases h2 : opcode = OP_NOT
  · subst h2
    simp [fold_spec_const_op, OP_SNEGATE, OP_IADD, OP_ISUB, OP_IMUL, OP_UDIV, OP_SDIV, OP_UMOD, OP_SREM, OP_SMOD, OP_SHIFT_RIGHT_LOGICAL, OP_SHIFT_RIGHT_ARITHMETIC, OP_SHIFT_LEFT_LOGICAL, OP_BITWISE_OR, OP_BITWISE_XOR, OP_BITWISE_AND, OP_NOT] at hf
    cases hca : itm.getConst aId with
    | error e => simp [hca] at hf
    | ok ca =>
      simp only [hca] at hf
      cases hav : ca.value.to_u32 with
      | error e => simp [hav] at hf
      | ok a => simp [hav] at hf
  by_cases h3 : opcode = OP_IADD
  · subst h3
    simp [fold_spec_const_op, OP_SNEGATE, OP_IADD, OP_ISUB, OP_IMUL, OP_UDIV, OP_SDIV, OP_UMOD, OP_SREM, OP_SMOD, OP_SHIFT_RIGHT_LOGICAL, OP_SHIFT_RIGHT_ARITHMETIC, OP_SHIFT_LEFT_LOGICAL, OP_BITWISE_OR, OP_BITWISE_XOR, OP_BITWISE_AND, OP_NOT] at hf
    obtain ⟨ca, a, cb, b, hca, hav, hcb, hbv, hfa⟩ := spec_bin_u32_panic itm aId bId _ hf
    exact absurd hfa (by simp)
  by_cases h4 : opcode = OP_ISUB
  · subst h4
    simp [fold_spec_const_op, OP_SNEGATE, OP_IADD, OP_ISUB, OP_IMUL, OP_UDIV, OP_SDIV, OP_UMOD, OP_SREM, OP_SMOD, OP_SHIFT_RIGHT_LOGICAL, OP_SHIFT_RIGHT_ARITHMETIC, OP_SHIFT_LEFT_LOGICAL, OP_BITWISE_OR, OP_BITWISE_XOR, OP_BITWISE_AND, OP_NOT] at hf
    obtain ⟨ca, a, cb, b, hca, hav, hcb, hbv, hfa⟩ := spec_bin_u32_panic itm aId bId _ hf
    exact absurd hfa (by simp)
  by_cases h5 : opcode = OP_IMUL
  · subst h5
    simp [fold_spec_const_op, OP_SNEGATE, OP_IADD, OP_ISUB, OP_IMUL, OP_UDIV, OP_SDIV, OP_UMOD, OP_SREM, OP_SMOD, OP_SHIFT_RIGHT_LOGICAL, OP_SHIFT_RIGHT_ARITHMETIC, OP_SHIFT_LEFT_LOGICAL, OP_BITWISE_OR, OP_BITWISE_XOR, OP_BITWISE_AND, OP_NOT] at hf
    obtain ⟨ca, a, cb, b, hca, hav, hcb, hbv, hfa⟩ := spec_bin_u32_panic itm aId bId _ hf
    exact absurd hfa (by simp)
  by_cases h6 : opcode = OP_UDIV
  · subst h6
    simp [fold_spec_const_op, OP_SNEGATE, OP_IADD, OP_ISUB, OP_IMUL, OP_UDIV, OP_SDIV, OP_UMOD, OP_SREM, OP_SMOD, OP_SHIFT_RIGHT_LOGICAL, OP_SHIFT_RIGHT_ARITHMETIC, OP_SHIFT_LEFT_LOGICAL, OP_BITWISE_OR, OP_BITWISE_XOR, OP_BITWISE_AND, OP_NOT] at hf
    obtain ⟨ca, a, cb, b, hca, hav, hcb, hbv, hfa⟩ := spec_bin_u32_panic itm aId bId _ hf
    by_cases hb0 : b = 0
    · exact Or.inl ⟨Or.inl rfl, cb, hcb, hb0 ▸ hbv⟩
    · rw [if_neg hb0] at hfa; exact absurd hfa (by simp)
  by_cases h7 : opcode = OP_SDIV
  · subst h7
    simp [fold_spec_const_op, OP_SNEGATE, OP_IADD, OP_ISUB, OP_IMUL, OP_UDIV, OP_SDIV, OP_UMOD, OP_SREM, OP_SMOD, OP_SHIFT_RIGHT_LOGICAL, OP_SHIFT_RIGHT_ARITHMETIC, OP_SHIFT_LEFT_LOGICAL, OP_BITWISE_OR, OP_BITWISE_XOR, OP_BITWISE_AND, OP_NOT] at hf
    obtain ⟨ca, a, cb, b, hca, hav, hcb, hbv, hfa⟩ := spec_bin_s32_panic itm aId bId _ hf
    by_cases hb0 : b = 0
    · exact Or.inr ⟨Or.inl rfl, cb, hcb, hb0 ▸ hbv⟩
    · rw [if_neg hb0] at hfa; exact absurd hfa (by simp)
  by_cases h8 : opcode = OP_UMOD
  · subst h8
    simp [fold_spec_const_op, OP_SNEGATE, OP_IADD, OP_ISUB, OP_IMUL, OP_UDIV, OP_SDIV, OP_UMOD, OP_SREM, OP_SMOD, OP_SHIFT_RIGHT_LOGICAL, OP_SHIFT_RIGHT_ARITHMETIC, OP_SHIFT_LEFT_LOGICAL, OP_BITWISE_OR, OP_BITWISE_XOR, OP_BITWISE_AND, OP_NOT] at hf
    obtain ⟨ca, a, cb, b, hca, hav, hcb, hbv, hfa⟩ := spec_bin_u32_panic itm aId bId _ hf
    by_cases hb0 : b = 0
    · exact Or.inl ⟨Or.inr rfl, cb, hcb, hb0 ▸ hbv⟩
    · rw [if_neg hb0] at hfa; exact absurd hfa (by simp)
  by_cases h9 : opcode = OP_SREM
  · subst h9
    simp [fold_spec_const_op, OP_SNEGATE, OP_IADD, OP_ISUB, OP_IMUL, OP_UDIV, OP_SDIV, OP_UMOD, OP_SREM, OP_SMOD, OP_SHIFT_RIGHT_LOGICAL, OP_SHIFT_RIGHT_ARITHMETIC, OP_SHIFT_LEFT_LOGICAL, OP_BITWISE_OR, OP_BITWISE_XOR, OP_BITWISE_AND, OP_NOT] at hf
    obtain ⟨ca, a, cb, b, hca, hav, hcb, hbv, hfa⟩ := spec_bin_s32_panic itm aId bId _ hf
    by_cases hb0 : b = 0
    · exact Or.inr ⟨Or.inr (Or.inl rfl), cb, hcb, hb0 ▸ hbv⟩
    · rw [if_neg hb0] at hfa; exact absurd hfa (by simp)
  by_cases h10 : opcode = OP_SMOD
  · subst h10
    simp [fold_spec_const_op, OP_SNEGATE, OP_IADD, OP_ISUB, OP_IMUL, OP_UDIV, OP_SDIV, OP_UMOD, OP_SREM, OP_SMOD, OP_SHIFT_RIGHT_LOGICAL, OP_SHIFT_RIGHT_ARITHMETIC, OP_SHIFT_LEFT_LOGICAL, OP_BITWISE_OR, OP_BITWISE_XOR, OP_BITWISE_AND, OP_NOT] at hf
    obtain ⟨ca, a, cb, b, hca, hav, hcb, hbv, hfa⟩ := spec_bin_s32_panic itm aId bId _ hf
    by_cases hb0 : b = 0
    · exact Or.inr ⟨Or.inr (Or.inr rfl), cb, hcb, hb0 ▸ hbv⟩
    · rw [if_neg hb0] at hfa; exact absurd hfa (by simp)
  by_cases h11 : opcode = OP_SHIFT_RIGHT_LOGICAL
  · subst h11
    simp [fold_spec_const_op, OP_SNEGATE, OP_IADD, OP_ISUB, OP_IMUL, OP_UDIV, OP_SDIV, OP_UMOD, OP_SREM, OP_SMOD, OP_SHIFT_RIGHT_LOGICAL, OP_SHIFT_RIGHT_ARITHMETIC, OP_SHIFT_LEFT_LOGICAL, OP_BITWISE_OR, OP_BITWISE_XOR, OP_BITWISE_AND, OP_NOT] at hf
    obtain ⟨ca, a, cb, b, hca, hav, hcb, hbv, hfa⟩ := spec_bin_u32_panic itm aId bId _ hf
    exact absurd hfa (by simp)
  by_cases h12 : opcode = OP_SHIFT_LEFT_LOGICAL
  · subst h12
    simp [fold_spec_const_op, OP_SNEGATE, OP_IADD, OP_ISUB, OP_IMUL, OP_UDIV, OP_SDIV, OP_UMOD, OP_SREM, OP_SMOD, OP_SHIFT_RIGHT_LOGICAL, OP_SHIFT_RIGHT_ARITHMETIC, OP_SHIFT_LEFT_LOGICAL, OP_BITWISE_OR, OP_BITWISE_XOR, OP_BITWISE_AND, OP_NOT] at hf
    obtain ⟨ca, a, cb, b, hca, hav, hcb, hbv, hfa⟩ := spec_bin_u32_panic itm aId bId _ hf
    exact absurd hfa (by simp)
  by_cases h13 : opcode = OP_BITWISE_OR
  · subst h13
    simp [fold_spec_const_op, OP_SNEGATE, OP_IADD, OP_ISUB, OP_IMUL, OP_UDIV, OP_SDIV, OP_UMOD, OP_SREM, OP_SMOD, OP_SHIFT_RIGHT_LOGICAL, OP_SHIFT_RIGHT_ARITHMETIC, OP_SHIFT_LEFT_LOGICAL, OP_BITWISE_OR, OP_BITWISE_XOR, OP_BITWISE_AND, OP_NOT] at hf
    obtain ⟨ca, a, cb, b, hca, hav, hcb, hbv, hfa⟩ := spec_bin_u32_panic itm aId bId _ hf
    exact absurd hfa (by simp)
  by_cases h14 : opcode = OP_BITWISE_XOR
  · subst h14
    simp [fold_spec_const_op, OP_SNEGATE, OP_IADD, OP_ISUB, OP_IMUL, OP_UDIV, OP_SDIV, OP_UMOD, OP_SREM, OP_SMOD, OP_SHIFT_RIGHT_LOGICAL, OP_SHIFT_RIGHT_ARITHMETIC, OP_SHIFT_LEFT_LOGICAL, OP_BITWISE_OR, OP_BITWISE_XOR, OP_BITWISE_AND, OP_NOT] at hf
    obtain ⟨ca, a, cb, b, hca, hav, hcb, hbv, hfa⟩ := spec_bin_u32_panic itm aId bId _ hf
    exact absurd hfa (by simp)
  by_cases h15 : opcode = OP_BITWISE_AND
  · subst h15
    simp [fold_spec_const_op, OP_SNEGATE, OP_IADD, OP_ISUB, OP_IMUL, OP_UDIV, OP_SDIV, OP_UMOD, OP_SREM, OP_SMOD, OP_SHIFT_RIGHT_LOGICAL, OP_SHIFT_RIGHT_ARITHMETIC, OP_SHIFT_LEFT_LOGICAL, OP_BITWISE_OR, OP_BITWISE_XOR, OP_BITWISE_AND, OP_NOT] at hf
    obtain ⟨ca, a, cb, b, hca, hav, hcb, hbv, hfa⟩ := spec_bin_u32_panic itm aId bId _ hf
    exact absurd hfa (by simp)
  simp [fold_spec_const_op, h1, h2, h3, h4, h5, h6, h7, h8, h9, h10, h11, h12, h13,
    h14, h15] at hf

theorem struct_members_loop_skip (itm : Itm) (tyId : Nat) :
    ∀ (start : Nat) (ids : List Nat),
    (∀ k memId ty, ids.get? k = some memId →
      alookup memId itm.tyMap = some ty → (∃ m, strip_arrays ty = .matrix m) →
      (itm.getMemberDecoU32 tyId (start + k) .matrixStride).isSome ∧
        itm.containsDeco tyId (some (start + k)) .rowMajor ≠
          itm.containsDeco tyId (some (start + k)) .colMajor) →
    (∃ k, k < ids.length ∧ itm.getMemberDecoU32 tyId (start + k) .offset = none) →
    struct_members_loop itm tyId start ids = .ok none := by
  intro start ids
  induction ids generalizing start with
  | nil =>
    intro _ hmiss
    obtain ⟨k, hk, _⟩ := hmiss
    exact absurd hk (by simp)
  | cons id rest ih =>
    intro hmat hmiss
    unfold struct_members_loop
    cases hlk : alookup id itm.tyMap with
    | none => rfl
    | some memberTy =>
      have hdecok : ∃ t,
          (match strip_arrays memberTy with
            | Ty.matrix _ =>
              match itm.getMemberDecoU32 tyId start .matrixStride with
              | none => Except.error Error.missingDeco
              | some matStride =>
                match itm.containsDeco tyId (some start) .rowMajor,
                    itm.containsDeco tyId (some start) .colMajor with
                | true, false => Except.ok (bake_matrix matStride .rowMajor memberTy)
                | false, true => Except.ok (bake_matrix matStride .columnMajor memberTy)
                | _, _ => Except.error Error.unencodedEnum
            | _ => Except.ok memberTy) = Except.ok t := by
        cases hstrip : strip_arrays memberTy with
        | matrix m =>
          obtain ⟨hs, hmaj⟩ := hmat 0 id memberTy rfl hlk ⟨m, hstrip⟩
          rw [Nat.add_zero] at hs hmaj
          obtain ⟨ms, hms⟩ := Option.isSome_iff_exists.mp hs
          rw [hms]
          cases hrow : itm.containsDeco tyId (some start) .rowMajor <;>
            cases hcol : itm.containsDeco tyId (some start) .colMajor
          · rw [hrow, hcol] at hmaj; exact absurd rfl hmaj
          · exact ⟨_, rfl⟩
          · exact ⟨_, rfl⟩
          · rw [hrow, hcol] at hmaj; exact absurd rfl hmaj
        | void => exact ⟨_, rfl⟩
        | scalar sc => exact ⟨_, rfl⟩
        | vector v => exact ⟨_, rfl⟩
        | image i => exact ⟨_, rfl⟩
        | sampler => exact ⟨_, rfl⟩
        | sampledImage si => exact ⟨_, rfl⟩
        | subpassData sd => exact ⟨_, rfl⟩
        | array p nn st => exact ⟨_, rfl⟩
        | struct nm mem => exact ⟨_, rfl⟩
        | accelStruct => exact ⟨_, rfl⟩
      obtain ⟨t, ht⟩ := hdecok
      simp only [ht]
      cases hoff : itm.getMemberDecoU32 tyId start .offset with
      | none => rfl
      | some off =>
        obtain ⟨k, hk, hknone⟩ := hmiss
        cases k with
        | zero =>
          rw [Nat.add_zero] at hknone
          rw [hknone] at hoff
          exact absurd hoff (by simp)
        | succ k2 =>
          have hrest : struct_members_loop itm tyId (start + 1) rest = .ok none := by
            apply ih (start + 1)
            · intro k3 memId ty hget hlk2 hm
              have hshift := hmat (k3 + 1) memId ty (by simpa using hget) hlk2 hm
              have harith : start + (k3 + 1) = start + 1 + k3 := by omega
              rw [harith] at hshift
              exact hshift
            · refine ⟨k2, by simpa using hk, ?_⟩
              have harith : start + (k2 + 1) = start + 1 + k2 := by omega
              rw [← harith]
              exact hknone
          simp [hrest]

/-- Counterexample for C8: a struct whose sole member is a matrix type
lacking both the Offset and MatrixStride member decorations makes
reflection fail with MISSING_DECO instead of silently skipping the
struct. -/
theorem claim_C8_counterexample :
    itmC8.getMemberDecoU32 2 0 .offset = none ∧
    populate_one_ty_struct itmC8 2 [1] = .error .missingDeco :=
  ⟨rfl, rfl⟩

/-- C8 (amended): for an OpTypeStruct with a member lacking an Offset
member-decoration, provided every member whose array-stripped registered
type is a matrix carries a MatrixStride decoration and exactly one of
RowMajor/ColMajor, reflection does not fail: the struct is not
registered; and every OpVariable whose pointee resolves to an
unregistered type is silently skipped. -/
theorem claim_C8_amended :
    (∀ (itm : Itm) (tyId : Nat) (memberTyIds : List Nat),
      (∀ k memId ty, memberTyIds.get? k = some memId →
        alookup memId itm.tyMap = some ty → (∃ m, strip_arrays ty = .matrix m) →
        (itm.getMemberDecoU32 tyId k .matrixStride).isSome ∧
          itm.containsDeco tyId (some k) .rowMajor ≠
            itm.containsDeco tyId (some k) .colMajor) →
      (∃ k, k < memberTyIds.length ∧ itm.getMemberDecoU32 tyId k .offset = none) →
      populate_one_ty_struct itm tyId memberTyIds = .ok none) ∧
    (∀ (itm : Itm) (op : OpVariable) (tyId : Nat),
      itm.accessChain op.tyId = some tyId →
      alookup tyId itm.tyMap = none →
      populate_one_var itm op = .ok none) := by
  constructor
  · intro itm tyId memberTyIds hmat hmiss
    have hloop : struct_members_loop itm tyId 0 memberTyIds = .ok none := by
      apply struct_members_loop_skip itm tyId 0 memberTyIds
      · intro k memId ty hget hlk hm
        simpa using hmat k memId ty hget hlk hm
      · obtain ⟨k, hk, hn⟩ := hmiss
        exact ⟨k, hk, by simpa using hn⟩
    simp [populate_one_ty_struct, hloop]
  · intro itm op tyId h1 h2
    simp [populate_one_var, h1, h2]

/-- Witness for C8 (amended) at a concrete struct whose scalar member
lacks an Offset decoration, and a concrete variable on an unregistered
pointee. -/
theorem claim_C8_amended_witness :
    populate_one_ty_struct itmC8W 2 [1] = .ok none ∧
    populate_one_var itmC8W ⟨10, 20, .uniform⟩ = .ok none :=
  ⟨claim_C8_amended.1 itmC8W 2 [1]
      (by
        intro k memId ty hget hlk hmat
        cases k with
        | zero =>
          simp at hget
          subst hget
          simp [alookup] at hlk
          obtain ⟨m, hm⟩ := hmat
          rw [← hlk] at hm
          simp [strip_arrays] at hm
        | succ k2 => simp at hget)
      ⟨0, by decide, rfl⟩,
   claim_C8_amended.2 itmC8W ⟨10, 20, .uniform⟩ 2 rfl rfl⟩

/-- Witness for C5 (amended) at the concrete panicking UDiv fold. -/
theorem claim_C5_amended_witness :
    ((OP_UDIV = OP_UDIV ∨ OP_UDIV = OP_UMOD) ∧
      ∃ cb, itmC5.getConst 2 = .ok cb ∧ cb.value.to_u32 = .ok 0) ∨
    ((OP_UDIV = OP_SDIV ∨ OP_UDIV = OP_SREM ∨ OP_UDIV = OP_SMOD) ∧
      ∃ cb, itmC5.getConst 2 = .ok cb ∧ cb.value.to_s32 = .ok 0) :=
  claim_C5_amended itmC5 9 OP_UDIV 1 2 rfl

theorem reaches_none (itm : Itm) (f g : Nat) (h : Reaches itm f g)
    (hn : itm.getFunc f = none) : g = f := by
  induction h with
  | refl => rfl
  | step h hf hc ih =>
    rw [ih] at hf
    rw [hn] at hf
    exact Option.noConfusion hf

theorem reaches_cases_head (itm : Itm) (f g : Nat) (h : Reaches itm f g) :
    g = f ∨ ∃ fi c, itm.getFunc f = some fi ∧ c ∈ fi.callees ∧ Reaches itm c g := by
  induction h with
  | refl => exact Or.inl rfl
  | @step g0 c fi h hf hc ih =>
    rcases ih with rfl | ⟨fi0, c0, hfi0, hc0, hr⟩
    · exact Or.inr ⟨fi, c, hf, hc, Reaches.refl c⟩
    · exact Or.inr ⟨fi0, c0, hfi0, hc0, Reaches.step hr hf hc⟩

theorem reaches_prepend (itm : Itm) (f c g : Nat) (fi : FunctionIntermediate)
    (hedge : itm.getFunc f = some fi) (hc : c ∈ fi.callees)
    (h : Reaches itm c g) : Reaches itm f g := by
  induction h with
  | refl => exact Reaches.step (Reaches.refl f) hedge hc
  | step h hf2 hc2 ih => exact Reaches.step ih hf2 hc2

theorem reach_accesses_none (itm : Itm) (f v : Nat) (hgf : itm.getFunc f = none) :
    ¬ reach_accesses itm f v := by
  rintro ⟨g, hr, fi, hfi, _⟩
  rw [reaches_none itm f g hr hgf] at hfi
  rw [hgf] at hfi
  exact Option.noConfusion hfi

theorem reach_accesses_unfold (itm : Itm) (f v : Nat) (fi : FunctionIntermediate)
    (hgf : itm.getFunc f = some fi) :
    reach_accesses itm f v ↔
      v ∈ fi.accessedVars ∨ ∃ c ∈ fi.callees, reach_accesses itm c v := by
  constructor
  · rintro ⟨g, hr, hacc⟩
    rcases reaches_cases_head itm f g hr with rfl | ⟨fi2, c, hfi2, hc, hr2⟩
    · obtain ⟨fi3, hgf3, hm⟩ := hacc
      rw [hgf] at hgf3
      injection hgf3 with he
      rw [← he] at hm
      exact Or.inl hm
    · rw [hgf] at hfi2
      injection hfi2 with he
      rw [← he] at hc
      exact Or.inr ⟨c, hc, g, hr2, hacc⟩
  · rintro (hm | ⟨c, hc, g, hr, hacc⟩)
    · exact ⟨f, Reaches.refl f, fi, hgf, hm⟩
    · exact ⟨g, reaches_prepend itm f c g fi hgf hc hr, hacc⟩

theorem collect_fn_vars_impl_mem (itm : Itm) (rank : Nat → Nat)
    (hrank : CallRanked itm rank) :
    ∀ (fuel : Nat) (f : Nat) (vars : List Nat) (v : Nat), rank f < fuel →
    (v ∈ collect_fn_vars_impl itm fuel f vars ↔ v ∈ vars ∨ reach_accesses itm f v) := by
  intro fuel
  induction fuel with
  | zero => intro f vars v h; exact absurd h (Nat.not_lt_zero _)
  | succ n ih =>
    intro f vars v hf
    unfold collect_fn_vars_impl
    cases hgf : itm.getFunc f with
    | none =>
      constructor
      · intro hv; exact Or.inl hv
      · rintro (hv | hr)
        · exact hv
        · exact absurd hr (reach_accesses_none itm f v hgf)
    | some fi =>
      have haux : ∀ (cs : List Nat), (∀ c ∈ cs, rank c < n) → ∀ (acc : List Nat),
          (v ∈ cs.foldl (fun acc c => collect_fn_vars_impl itm n c acc) acc ↔
            v ∈ acc ∨ ∃ c ∈ cs, reach_accesses itm c v) := by
        intro cs
        induction cs with
        | nil => intro _ acc; simp
        | cons c cs2 ihc =>
          intro hcs acc
          simp only [List.foldl_cons]
          rw [ihc (fun x hx => hcs x (List.mem_cons_of_mem c hx)) _]
          rw [ih c acc v (hcs c (List.mem_cons_self c cs2))]
          constructor
          · rintro ((hv | hp) | ⟨c2, hc2, hp⟩)
            · exact Or.inl hv
            · exact Or.inr ⟨c, List.mem_cons_self c cs2, hp⟩
            · exact Or.inr ⟨c2, List.mem_cons_of_mem c hc2, hp⟩
          · rintro (hv | ⟨c2, hc2, hp⟩)
            · exact Or.inl (Or.inl hv)
            · rcases List.mem_cons.mp hc2 with rfl | hmem
              · exact Or.inl (Or.inr hp)
              · exact Or.inr ⟨c2, hmem, hp⟩
      rw [haux fi.callees
        (fun c hc => Nat.lt_of_lt_of_le (hrank f fi hgf c hc) (Nat.lt_succ_iff.mp hf))
        (vars ++ fi.accessedVars)]
      rw [List.mem_append, reach_accesses_unfold itm f v fi hgf]
      tauto

theorem mem_collect_entry_point_vars (itm : Itm) (fuel : Nat)
    (dedup : List Nat → List Nat) (funcId : Nat) (rank : Nat → Nat)
    (hrank : CallRanked itm rank) (hfuel : rank funcId < fuel)
    (hdedup : ∀ l x, x ∈ dedup l ↔ x ∈ l) (v : Variable) :
    v ∈ collect_entry_point_vars itm fuel dedup funcId ↔
      ∃ id, reach_accesses itm funcId id ∧ itm.getVar id = some v := by
  unfold collect_entry_point_vars collect_fn_vars
  rw [List.mem_filterMap]
  constructor
  · rintro ⟨id, hid, hv⟩
    rw [hdedup] at hid
    rw [collect_fn_vars_impl_mem itm rank hrank fuel funcId [] id hfuel] at hid
    rcases hid with hid | hid
    · exact absurd hid (by simp)
    · exact ⟨id, hid, hv⟩
  · rintro ⟨id, hr, hv⟩
    refine ⟨id, ?_, hv⟩
    rw [hdedup]
    rw [collect_fn_vars_impl_mem itm rank hrank fuel funcId [] id hfuel]
    exact Or.inr hr

theorem mapM_option_some {α β : Type} (g : α → β) :
    ∀ (l : List α), l.mapM (fun a => some (g a)) = some (l.map g) := by
  intro l
  induction l with
  | nil => rfl
  | cons a t ih => rw [List.mapM_cons, ih]; rfl

theorem collect_entry_points_no_fusion (itm : Itm) (cfg : ReflectConfig) (fuel : Nat)
    (dedup : List Nat → List Nat) (constOrder : List (Nat × ConstantIntermediate))
    (hc : cfg.combineImgSamplers = false) :
    collect_entry_points itm cfg fuel dedup constOrder =
      some (itm.entryPointDeclrs.map (fun declr =>
        { name := declr.name
          execModel := declr.execModel
          vars := (if cfg.refAllRscs then itm.vars
              else collect_entry_point_vars itm fuel dedup declr.funcId) ++
            collect_entry_point_specs itm constOrder
          execModes := collect_exec_modes itm declr.funcId })) := by
  unfold collect_entry_points
  generalize itm.entryPointDeclrs = l
  induction l with
  | nil => rfl
  | cons d t ih =>
    rw [List.mapM_cons, ih, List.map_cons]
    rw [hc]
    rfl

theorem specs_are_spec (itm : Itm) (constOrder : List (Nat × ConstantIntermediate)) :
    ∀ v ∈ collect_entry_point_specs itm constOrder, v.isSpecConstant = true := by
  intro v hv
  unfold collect_entry_point_specs at hv
  rw [List.mem_filterMap] at hv
  obtain ⟨entry, _, he⟩ := hv
  cases hs : entry.2.specId with
  | none => rw [hs] at he; exact Option.noConfusion he
  | some specId =>
    rw [hs] at he
    injection he with he
    rw [← he]
    rfl

theorem getVar_mem (itm : Itm) (id : Nat) (v : Variable)
    (h : itm.getVar id = some v) : v ∈ itm.vars := by
  unfold Itm.getVar at h
  cases hl : alookup id itm.varMap with
  | none => rw [hl] at h; exact Option.noConfusion h
  | some ivar =>
    rw [hl] at h
    exact List.get?_mem h

/-- C1 (amended): with image+sampler fusion disabled, every produced
entry point carries the declared name and execution model, and its
non-SpecConstant variables are exactly the recognised variables
transitively reachable from the entry function through OpFunctionCall
edges via load/store/atomic accesses when reference_all_resources is
false, and exactly all recognised variables when it is true; the
SpecConstant variables collected from outstanding spec ids are appended
on top.  The ranking hypothesis is SPIR-V acyclicity, which the unguarded
Rust recursion relies on. -/
theorem claim_C1_amended (itm : Itm) (cfg : ReflectConfig) (fuel : Nat)
    (dedup : List Nat → List Nat) (constOrder : List (Nat × ConstantIntermediate))
    (rank : Nat → Nat) (eps : List EntryPoint)
    (hrank : CallRanked itm rank)
    (hdedup : ∀ l x, x ∈ dedup l ↔ x ∈ l)
    (hcomb : cfg.combineImgSamplers = false)
    (hnospec : ∀ v ∈ itm.vars, v.isSpecConstant = false)
    (hfuel : ∀ declr ∈ itm.entryPointDeclrs, rank declr.funcId < fuel)
    (heps : collect_entry_points itm cfg fuel dedup constOrder = some eps) :
    List.Forall₂ (fun (declr : EntryPointDeclaration) (ep : EntryPoint) =>
      ep.name = declr.name ∧ ep.execModel = declr.execModel ∧
      ∀ v, (v ∈ ep.vars ∧ v.isSpecConstant = false) ↔
        ((cfg.refAllRscs = true ∧ v ∈ itm.vars) ∨
          (cfg.refAllRscs = false ∧
            ∃ id, reach_accesses itm declr.funcId id ∧ itm.getVar id = some v)))
      itm.entryPointDeclrs eps := by
  rw [collect_entry_points_no_fusion itm cfg fuel dedup constOrder hcomb] at heps
  injection heps with heps
  rw [← heps]
  have main : ∀ (l : List EntryPointDeclaration),
      (∀ declr ∈ l, rank declr.funcId < fuel) →
      List.Forall₂ (fun (declr : EntryPointDeclaration) (ep : EntryPoint) =>
        ep.name = declr.name ∧ ep.execModel = declr.execModel ∧
        ∀ v, (v ∈ ep.vars ∧ v.isSpecConstant = false) ↔
          ((cfg.refAllRscs = true ∧ v ∈ itm.vars) ∨
            (cfg.refAllRscs = false ∧
              ∃ id, reach_accesses itm declr.funcId id ∧ itm.getVar id = some v)))
        l (l.map (fun declr =>
          { name := declr.name
            execModel := declr.execModel
            vars := (if cfg.refAllRscs then itm.vars
                else collect_entry_point_vars itm fuel dedup declr.funcId) ++
              collect_entry_point_specs itm constOrder
            execModes := collect_exec_modes itm declr.funcId })) := by
    intro l hl
    induction l with
    | nil => exact List.Forall₂.nil
    | cons d t ihl =>
      rw [List.map_cons]
      refine List.Forall₂.cons ⟨rfl, rfl, ?_⟩
        (ihl fun x hx => hl x (List.mem_cons_of_mem d hx))
      intro v
      dsimp only
      cases hra : cfg.refAllRscs with
      | true =>
        rw [if_pos rfl, List.mem_append]
        constructor
        · rintro ⟨hmem | hmem, hns⟩
          · exact Or.inl ⟨rfl, hmem⟩
          · rw [specs_are_spec itm constOrder v hmem] at hns
            exact Bool.noConfusion hns
        · rintro (⟨_, hmem⟩ | ⟨hfalse, _⟩)
          · exact ⟨Or.inl hmem, hnospec v hmem⟩
          · exact absurd hfalse (by simp)
      | false =>
        rw [if_neg (by simp), List.mem_append]
        constructor
        · rintro ⟨hmem | hmem, hns⟩
          · rw [mem_collect_entry_point_vars itm fuel dedup d.funcId rank hrank
              (hl d (List.mem_cons_self d t)) hdedup v] at hmem
            exact Or.inr ⟨rfl, hmem⟩
          · rw [specs_are_spec itm constOrder v hmem] at hns
            exact Bool.noConfusion hns
        · rintro (⟨htrue, _⟩ | ⟨_, id, hr, hv⟩)
          · exact absurd htrue (by simp)
          · have hmem : v ∈ collect_entry_point_vars itm fuel dedup d.funcId := by
              rw [mem_collect_entry_point_vars itm fuel dedup d.funcId rank hrank
                (hl d (List.mem_cons_self d t)) hdedup v]
              exact ⟨id, hr, hv⟩
            exact ⟨Or.inl hmem, hnospec v (getVar_mem itm id v hv)⟩
  exact main itm.entryPointDeclrs hfuel

/-- Counterexample for C1: an intermediate with one entry point, no
functions and one outstanding specialization constant produces an
EntryPoint whose variable set contains a SpecConstant variable that is
not a recognised variable reachable from the entry function, so the
claimed set equality fails as stated. -/
theorem claim_C1_counterexample :
    ∃ ep : EntryPoint,
      collect_entry_points itmC1 cfgOff 1 (fun l => l) itmC1.constMap = some [ep] ∧
      ∃ v, v ∈ ep.vars ∧
        ¬ ∃ id, reach_accesses itmC1 1 id ∧ itmC1.getVar id = some v := by
  refine ⟨{ name := "main", execModel := 0,
            vars := [.specConstant none 3 (.scalar (.unsigned 4))], execModes := [] },
    rfl, .specConstant none 3 (.scalar (.unsigned 4)), by simp, ?_⟩
  rintro ⟨id, ⟨g, hr, fi, hfi, _⟩, _⟩
  have halk : alookup g itmC1.funcMap = some fi := hfi
  simp [itmC1, emptyItm, alookup] at halk

/-- Witness for C1 (amended) on a concrete two-function module: the
entry function accesses variable 7 and calls a function accessing
variable 8; both recognised descriptors are collected. -/
theorem claim_C1_amended_witness :
    List.Forall₂ (fun (declr : EntryPointDeclaration) (ep : EntryPoint) =>
      ep.name = declr.name ∧ ep.execModel = declr.execModel ∧
      ∀ v, (v ∈ ep.vars ∧ v.isSpecConstant = false) ↔
        ((cfgOff.refAllRscs = true ∧ v ∈ itmW1.vars) ∨
          (cfgOff.refAllRscs = false ∧
            ∃ id, reach_accesses itmW1 declr.funcId id ∧ itmW1.getVar id = some v)))
      itmW1.entryPointDeclrs
      [{ name := "main", execModel := 0,
         vars := [.descriptor none ⟨0, 0⟩ .uniformBuffer .void 1,
                  .descriptor none ⟨0, 1⟩ .uniformBuffer .void 1],
         execModes := [] }] := by
  refine claim_C1_amended itmW1 cfgOff 2 (fun l => l) []
    (fun f => if f = 1 then 1 else 0) _ ?_ (fun _ _ => Iff.rfl) rfl (by decide)
    (by decide) rfl
  intro f fi hf c hc
  have halk : alookup f itmW1.funcMap = some fi := hf
  by_cases hf1 : f = 1
  · subst hf1
    simp [itmW1, emptyItm, alookup] at halk
    rw [← halk] at hc
    simp at hc
    subst hc
    decide
  · by_cases hf2 : f = 2
    · subst hf2
      simp [itmW1, emptyItm, alookup] at halk
      rw [← halk] at hc
      simp at hc
    · have hf1n : ¬ (1 = f) := fun h => hf1 h.symm
      have hf2n : ¬ (2 = f) := fun h => hf2 h.symm
      simp [itmW1, emptyItm, alookup, hf1n, hf2n] at halk

/-- C7: reflection projection is deterministic up to ordering.  The only
nondeterminism candidates in the source are the iteration orders of the
`HashSet` of deduplicated variable ids and of `const_map.values()`, both
modelled as explicit parameters.  With fusion disabled, any two valid
iteration orders produce entry-point lists of the same length whose
corresponding records have equal names, execution models and execution
modes and permuted variable lists; with fusion enabled the same holds
when the two runs see the same orders, which is what two runs on one
input observe since the unseeded FNV hash tables iterate
deterministically. -/
theorem claim_C7 (itm : Itm) (cfg : ReflectConfig) (fuel : Nat)
    (dedup1 dedup2 : List Nat → List Nat)
    (constOrder1 constOrder2 : List (Nat × ConstantIntermediate))
    (eps1 eps2 : List EntryPoint)
    (hd1 : ∀ l, (dedup1 l).Nodup ∧ ∀ x, x ∈ dedup1 l ↔ x ∈ l)
    (hd2 : ∀ l, (dedup2 l).Nodup ∧ ∀ x, x ∈ dedup2 l ↔ x ∈ l)
    (hco1 : constOrder1.Perm itm.constMap)
    (hco2 : constOrder2.Perm itm.constMap)
    (hsame : cfg.combineImgSamplers = false ∨
      (dedup1 = dedup2 ∧ constOrder1 = constOrder2))
    (h1 : collect_entry_points itm cfg fuel dedup1 constOrder1 = some eps1)
    (h2 : collect_entry_points itm cfg fuel dedup2 constOrder2 = some eps2) :
    eps1.length = eps2.length ∧
    List.Forall₂ (fun a b => a.name = b.name ∧ a.execModel = b.execModel ∧
      a.execModes = b.execModes ∧ a.vars.Perm b.vars) eps1 eps2 := by
  rcases hsame with hcomb | ⟨hde, hcoe⟩
  · rw [collect_entry_points_no_fusion itm cfg fuel dedup1 constOrder1 hcomb] at h1
    rw [collect_entry_points_no_fusion itm cfg fuel dedup2 constOrder2 hcomb] at h2
    injection h1 with h1
    injection h2 with h2
    rw [← h1, ← h2]
    constructor
    · simp
    · have hvars : ∀ funcId : Nat,
          ((if cfg.refAllRscs then itm.vars
              else collect_entry_point_vars itm fuel dedup1 funcId) ++
            collect_entry_point_specs itm constOrder1).Perm
          ((if cfg.refAllRscs then itm.vars
              else collect_entry_point_vars itm fuel dedup2 funcId) ++
            collect_entry_point_specs itm constOrder2) := by
        intro funcId
        refine List.Perm.append ?_ ?_
        · cases hra : cfg.refAllRscs with
          | true => rw [if_pos rfl]; exact List.Perm.refl _
          | false =>
            rw [if_neg (by simp)]
            unfold collect_entry_point_vars
            refine List.Perm.filterMap _ ?_
            refine (List.perm_ext_iff_of_nodup (hd1 _).1 (hd2 _).1).mpr ?_
            intro a
            rw [(hd1 _).2 a, (hd2 _).2 a]
        · unfold collect_entry_point_specs
          exact List.Perm.filterMap _ (hco1.trans hco2.symm)
      generalize itm.entryPointDeclrs = l
      induction l with
      | nil => exact List.Forall₂.nil
      | cons d t ih =>
        rw [List.map_cons, List.map_cons]
        exact List.Forall₂.cons ⟨rfl, rfl, rfl, hvars d.funcId⟩ ih
  · subst hde
    subst hcoe
    rw [h1] at h2
    injection h2 with h2
    subst h2
    refine ⟨rfl, List.forall₂_same.mpr ?_⟩
    intro ep _
    exact ⟨rfl, rfl, rfl, List.Perm.refl _⟩

/-- Witness for C7 at the empty module with two dedup orders. -/
theorem claim_C7_witness :
    ([] : List EntryPoint).length = ([] : List EntryPoint).length ∧
    List.Forall₂ (fun (a b : EntryPoint) => a.name = b.name ∧
      a.execModel = b.execModel ∧ a.execModes = b.execModes ∧ a.vars.Perm b.vars)
      [] [] :=
  claim_C7 emptyItm cfgOff 0 (fun l => l.dedup) (fun l => l.dedup) [] [] [] []
    (fun l => ⟨List.nodup_dedup l, fun _ => List.mem_dedup⟩)
    (fun l => ⟨List.nodup_dedup l, fun _ => List.mem_dedup⟩)
    (List.Perm.refl _) (List.Perm.refl _) (Or.inl rfl) rfl rfl

/-- Counterexample for C6: with two samplers and one matching image, one
fusion pass yields the unmatched sampler before the combined descriptor,
while a second pass reorders them, so fusion is not idempotent as a
function on lists. -/
theorem claim_C6_counterexample :
    combine_img_samplers [varS1, varS2, varI] = some [varS1, varC] ∧
    combine_img_samplers [varS1, varC] = some [varC, varS1] ∧
    [varC, varS1] ≠ [varS1, varC] :=
  ⟨rfl, rfl, by simp [varC, varS1]⟩

theorem samplerD_descTy (v : Variable) (h : samplerD v = true) :
    v.descTy = some DescriptorType.sampler := by
  unfold samplerD at h
  exact of_decide_eq_true h

theorem imgD_descTy (v : Variable) (h : imgD v = true) :
    v.descTy = some DescriptorType.sampledImage := by
  unfold imgD at h
  exact of_decide_eq_true h

theorem samplerD_shape (v : Variable) (h : samplerD v = true) :
    ∃ name descBind ty nb, v = .descriptor name descBind .sampler ty nb := by
  have hd := samplerD_descTy v h
  cases v with
  | descriptor name descBind descTy ty nb =>
    injection hd with hd
    rw [hd]
    exact ⟨name, descBind, ty, nb, rfl⟩
  | input n l t => exact Option.noConfusion hd
  | output n l t => exact Option.noConfusion hd
  | pushConstant n t => exact Option.noConfusion hd
  | specConstant n i t => exact Option.noConfusion hd

theorem not_imgD_of_samplerD (v : Variable) (h : samplerD v = true) :
    imgD v = false := by
  rw [imgD, samplerD_descTy v h]
  rfl

theorem not_samplerD_of_imgD (v : Variable) (h : imgD v = true) :
    samplerD v = false := by
  rw [samplerD, imgD_descTy v h]
  rfl

theorem mapM_option_of_forall_isSome {α β : Type} (f : α → Option β) :
    ∀ (l : List α), (∀ x ∈ l, (f x).isSome) → ∃ l2, l.mapM f = some l2 := by
  intro l
  induction l with
  | nil => exact fun _ => ⟨[], rfl⟩
  | cons a t ih =>
    intro hall
    obtain ⟨y, hy⟩ := Option.isSome_iff_exists.mp (hall a (List.mem_cons_self a t))
    obtain ⟨l2, hl2⟩ := ih (fun x hx => hall x (List.mem_cons_of_mem a hx))
    exact ⟨y :: l2, by rw [List.mapM_cons, hy, hl2]; rfl⟩

theorem mapM_option_mem {α β : Type} (f : α → Option β) :
    ∀ (l : List α) (l2 : List β), l.mapM f = some l2 →
      ∀ x ∈ l, ∃ y ∈ l2, f x = some y := by
  intro l
  induction l with
  | nil => intro l2 _ x hx; exact absurd hx (by simp)
  | cons a t ih =>
    intro l2 hm x hx
    rw [List.mapM_cons] at hm
    cases hy : f a with
    | none => rw [hy] at hm; exact Option.noConfusion hm
    | some y =>
      rw [hy] at hm
      cases ht : t.mapM f with
      | none =>
        rw [ht] at hm
        exact Option.noConfusion hm
      | some t2 =>
        rw [ht] at hm
        have hl2 : l2 = y :: t2 := by
          have : some (y :: t2) = some l2 := hm
          injection this with h
          exact h.symm
        subst hl2
        rcases List.mem_cons.mp hx with rfl | hxt
        · exact ⟨y, List.mem_cons_self y t2, hy⟩
        · obtain ⟨y2, hy2, hfy2⟩ := ih t2 ht x hxt
          exact ⟨y2, List.mem_cons_of_mem y hy2, hfy2⟩

theorem mapM_option_mem_rev {α β : Type} (f : α → Option β) :
    ∀ (l : List α) (l2 : List β), l.mapM f = some l2 →
      ∀ y ∈ l2, ∃ x ∈ l, f x = some y := by
  intro l
  induction l with
  | nil =>
    intro l2 hm y hy
    have : some [] = some l2 := hm
    injection this with h
    subst h
    exact absurd hy (by simp)
  | cons a t ih =>
    intro l2 hm y hy
    rw [List.mapM_cons] at hm
    cases hya : f a with
    | none => rw [hya] at hm; exact Option.noConfusion hm
    | some y0 =>
      rw [hya] at hm
      cases ht : t.mapM f with
      | none => rw [ht] at hm; exact Option.noConfusion hm
      | some t2 =>
        rw [ht] at hm
        have hl2 : l2 = y0 :: t2 := by
          have : some (y0 :: t2) = some l2 := hm
          injection this with h
          exact h.symm
        subst hl2
        rcases List.mem_cons.mp hy with rfl | hyt
        · exact ⟨a, List.mem_cons_self a t, hya⟩
        · obtain ⟨x, hx, hfx⟩ := ih t2 ht y hyt
          exact ⟨x, List.mem_cons_of_mem a hx, hfx⟩

theorem combine_partition_eq (vs : List Variable) :
    combine_partition vs =
      (vs.filter samplerD, vs.filter imgD,
        vs.filter (fun v => !(samplerD v) && !(imgD v))) := by
  induction vs with
  | nil => rfl
  | cons v rest ih =>
    unfold combine_partition
    rw [ih]
    cases hd : v.descTy with
    | none => simp [samplerD, imgD, hd, List.filter_cons]
    | some dt => cases dt <;> simp [samplerD, imgD, hd, List.filter_cons]

theorem combine_loop_out_mem :
    ∀ (ss imgs out res : List Variable), combine_loop ss imgs out = some res →
      ∀ x ∈ out, x ∈ res := by
  intro ss
  induction ss with
  | nil =>
    intro imgs out res h x hx
    have hres : some (out ++ imgs) = some res := h
    injection hres with hres
    rw [← hres]
    exact List.mem_append_left _ hx
  | cons s rest ih =>
    intro imgs out res h x hx
    cases s with
    | descriptor name descBind descTy ty nbind =>
      simp only [combine_loop] at h
      by_cases hemp : (imgs.filter (img_matches descBind nbind)).isEmpty
      · rw [if_pos hemp] at h
        exact ih _ _ res h x (List.mem_append_left _ hx)
      · rw [if_neg hemp] at h
        cases hmM : (imgs.filter (img_matches descBind nbind)).mapM
            (combine_one_img descBind nbind) with
        | none => rw [hmM] at h; exact Option.noConfusion h
        | some newVars =>
          rw [hmM] at h
          exact ih _ _ res h x (List.mem_append_left _ hx)
    | input n l t => exact Option.noConfusion h
    | output n l t => exact Option.noConfusion h
    | pushConstant n t => exact Option.noConfusion h
    | specConstant n i t => exact Option.noConfusion h

theorem combine_one_img_shape (descBind : DescriptorBinding) (nbind : Nat)
    (x w : Variable) (h : combine_one_img descBind nbind x = some w) :
    ∃ name img, w = .descriptor name descBind .combinedImageSampler
      (.sampledImage ⟨img⟩) nbind := by
  cases x with
  | descriptor name db dt ty nb =>
    cases ty with
    | image imgTy =>
      injection h with h
      exact ⟨name, imgTy, h.symm⟩
    | void => exact Option.noConfusion h
    | scalar s => exact Option.noConfusion h
    | vector v => exact Option.noConfusion h
    | matrix m => exact Option.noConfusion h
    | sampler => exact Option.noConfusion h
    | sampledImage si => exact Option.noConfusion h
    | subpassData sd => exact Option.noConfusion h
    | array p nn st => exact Option.noConfusion h
    | struct snm mem => exact Option.noConfusion h
    | accelStruct => exact Option.noConfusion h
  | input n l t => exact Option.noConfusion h
  | output n l t => exact Option.noConfusion h
  | pushConstant n t => exact Option.noConfusion h
  | specConstant n i t => exact Option.noConfusion h

theorem combine_loop_some :
    ∀ (ss imgs out : List Variable),
      (∀ s ∈ ss, samplerD s = true) →
      (∀ x ∈ imgs, ∃ name descBind img nb,
        x = .descriptor name descBind .sampledImage (.image img) nb) →
      ∃ res, combine_loop ss imgs out = some res := by
  intro ss
  induction ss with
  | nil => intro imgs out _ _; exact ⟨out ++ imgs, rfl⟩
  | cons s rest ih =>
    intro imgs out hss himgs
    obtain ⟨name, descBind, ty, nb, hs⟩ := samplerD_shape s (hss s (List.mem_cons_self s rest))
    subst hs
    simp only [combine_loop]
    have hrest : ∀ s2 ∈ rest, samplerD s2 = true :=
      fun s2 hs2 => hss s2 (List.mem_cons_of_mem _ hs2)
    have hrem : ∀ x ∈ imgs.filter (fun v => !(img_matches descBind nb v)),
        ∃ name2 descBind2 img nb2,
          x = .descriptor name2 descBind2 .sampledImage (.image img) nb2 :=
      fun x hx => himgs x (List.mem_of_mem_filter hx)
    by_cases hemp : (imgs.filter (img_matches descBind nb)).isEmpty
    · rw [if_pos hemp]
      exact ih _ _ hrest hrem
    · rw [if_neg hemp]
      have hsome : ∀ x ∈ imgs.filter (img_matches descBind nb),
          (combine_one_img descBind nb x).isSome := by
        intro x hx
        obtain ⟨n2, b2, img, nb2, hx2⟩ := himgs x (List.mem_of_mem_filter hx)
        subst hx2
        rfl
      obtain ⟨newVars, hnv⟩ :=
        mapM_option_of_forall_isSome (combine_one_img descBind nb) _ hsome
      rw [hnv]
      exact ih _ _ hrest hrem

theorem combine_loop_img_locator :
    ∀ (ss imgs out res : List Variable), combine_loop ss imgs out = some res →
      ∀ x ∈ imgs, ∃ w ∈ res, w.locator = x.locator := by
  intro ss
  induction ss with
  | nil =>
    intro imgs out res h x hx
    have hres : some (out ++ imgs) = some res := h
    injection hres with hres
    exact ⟨x, by rw [← hres]; exact List.mem_append_right _ hx, rfl⟩
  | cons s rest ih =>
    intro imgs out res h x hx
    cases s with
    | descriptor name descBind descTy ty nbind =>
      simp only [combine_loop] at h
      cases hmx : img_matches descBind nbind x with
      | false =>
        have hxrem : x ∈ imgs.filter (fun v => !(img_matches descBind nbind v)) :=
          List.mem_filter.mpr ⟨hx, by rw [hmx]; rfl⟩
        by_cases hemp : (imgs.filter (img_matches descBind nbind)).isEmpty
        · rw [if_pos hemp] at h
          exact ih _ _ res h x hxrem
        · rw [if_neg hemp] at h
          cases hmM : (imgs.filter (img_matches descBind nbind)).mapM
              (combine_one_img descBind nbind) with
          | none => rw [hmM] at h; exact Option.noConfusion h
          | some newVars =>
            rw [hmM] at h
            exact ih _ _ res h x hxrem
      | true =>
        have hxc : x ∈ imgs.filter (img_matches descBind nbind) :=
          List.mem_filter.mpr ⟨hx, hmx⟩
        have hxloc : x.locator = Locator.descriptor descBind := by
          unfold img_matches at hmx
          exact of_decide_eq_true (Bool.and_elim_left hmx)
        by_cases hemp : (imgs.filter (img_matches descBind nbind)).isEmpty
        · rw [List.isEmpty_iff] at hemp
          rw [hemp] at hxc
          exact absurd hxc (by simp)
        · rw [if_neg hemp] at h
          cases hmM : (imgs.filter (img_matches descBind nbind)).mapM
              (combine_one_img descBind nbind) with
          | none => rw [hmM] at h; exact Option.noConfusion h
          | some newVars =>
            rw [hmM] at h
            obtain ⟨w, hw, hcw⟩ := mapM_option_mem _ _ newVars hmM x hxc
            obtain ⟨n2, img, hwshape⟩ := combine_one_img_shape descBind nbind x w hcw
            refine ⟨w, combine_loop_out_mem rest _ _ res h w
              (List.mem_append_right _ hw), ?_⟩
            rw [hwshape, hxloc]
            rfl
    | input n l t => exact Option.noConfusion h
    | output n l t => exact Option.noConfusion h
    | pushConstant n t => exact Option.noConfusion h
    | specConstant n i t => exact Option.noConfusion h

theorem combine_loop_sampler_locator :
    ∀ (ss imgs out res : List Variable),
      combine_loop ss imgs out = some res →
      ∀ s ∈ ss, ∃ w ∈ res, w.locator = s.locator := by
  intro ss
  induction ss with
  | nil => intro imgs out res _ s hs; exact absurd hs (by simp)
  | cons s0 rest ih =>
    intro imgs out res h s hs
    cases s0 with
    | descriptor name descBind descTy ty nbind =>
      simp only [combine_loop] at h
      rcases List.mem_cons.mp hs with rfl | hsr
      · by_cases hemp : (imgs.filter (img_matches descBind nbind)).isEmpty
        · rw [if_pos hemp] at h
          refine ⟨.descriptor name descBind descTy ty nbind,
            combine_loop_out_mem rest _ _ res h _
              (List.mem_append_right _ (List.mem_singleton_self _)), rfl⟩
        · rw [if_neg hemp] at h
          cases hmM : (imgs.filter (img_matches descBind nbind)).mapM
              (combine_one_img descBind nbind) with
          | none => rw [hmM] at h; exact Option.noConfusion h
          | some newVars =>
            rw [hmM] at h
            have hne : imgs.filter (img_matches descBind nbind) ≠ [] := by
              intro hnil
              rw [hnil] at hemp
              exact hemp rfl
            obtain ⟨c, hc⟩ := List.exists_mem_of_ne_nil _ hne
            obtain ⟨w, hw, hcw⟩ := mapM_option_mem _ _ newVars hmM c hc
            obtain ⟨n2, img, hwshape⟩ := combine_one_img_shape descBind nbind c w hcw
            refine ⟨w, combine_loop_out_mem rest _ _ res h w
              (List.mem_append_right _ hw), ?_⟩
            rw [hwshape]
            rfl
      · by_cases hemp : (imgs.filter (img_matches descBind nbind)).isEmpty
        · rw [if_pos hemp] at h
          exact ih _ _ res h s hsr
        · rw [if_neg hemp] at h
          cases hmM : (imgs.filter (img_matches descBind nbind)).mapM
              (combine_one_img descBind nbind) with
          | none => rw [hmM] at h; exact Option.noConfusion h
          | some newVars =>
            rw [hmM] at h
            exact ih _ _ res h s hsr
    | input n l t => exact Option.noConfusion h
    | output n l t => exact Option.noConfusion h
    | pushConstant n t => exact Option.noConfusion h
    | specConstant n i t => exact Option.noConfusion h

theorem combine_loop_no_match :
    ∀ (ss imgs out res : List Variable),
      combine_loop ss imgs out = some res →
      (∀ s ∈ ss, samplerD s = true) →
      (∀ x ∈ imgs, imgD x = true) →
      (∀ x ∈ out, imgD x = false) →
      (∀ s ∈ out, samplerD s = true → ∀ x ∈ imgs, matchOf s x = false) →
      ∀ s ∈ res, samplerD s = true → ∀ x ∈ res, imgD x = true → matchOf s x = false := by
  intro ss
  induction ss with
  | nil =>
    intro imgs out res h hss himgs houtimg houtsamp s hs hsD x hx hxD
    have hres : some (out ++ imgs) = some res := h
    injection hres with hres
    rw [← hres] at hs hx
    rcases List.mem_append.mp hs with hso | hsi
    · rcases List.mem_append.mp hx with hxo | hxi
      · rw [houtimg x hxo] at hxD; exact Bool.noConfusion hxD
      · exact houtsamp s hso hsD x hxi
    · rw [not_samplerD_of_imgD s (himgs s hsi)] at hsD
      exact Bool.noConfusion hsD
  | cons s0 rest ih =>
    intro imgs out res h hss himgs houtimg houtsamp s hs hsD x hx hxD
    cases s0 with
    | descriptor name descBind descTy ty nbind =>
      simp only [combine_loop] at h
      have hrestss : ∀ s2 ∈ rest, samplerD s2 = true :=
        fun s2 h2 => hss s2 (List.mem_cons_of_mem _ h2)
      have hremimg : ∀ x2 ∈ imgs.filter (fun v => !(img_matches descBind nbind v)),
          imgD x2 = true :=
        fun x2 h2 => himgs x2 (List.mem_of_mem_filter h2)
      by_cases hemp : (imgs.filter (img_matches descBind nbind)).isEmpty
      · rw [if_pos hemp] at h
        refine ih _ _ res h hrestss hremimg ?_ ?_ s hs hsD x hx hxD
        · intro x2 hx2
          rcases List.mem_append.mp hx2 with h2 | h2
          · exact houtimg x2 h2
          · rw [List.mem_singleton] at h2
            subst h2
            exact not_imgD_of_samplerD _ (hss _ (List.mem_cons_self _ _))
        · intro s2 hs2 hs2D x2 hx2
          rcases List.mem_append.mp hs2 with h2 | h2
          · exact houtsamp s2 h2 hs2D x2 (List.mem_of_mem_filter hx2)
          · rw [List.mem_singleton] at h2
            subst h2
            have hb := (List.mem_filter.mp hx2).2
            show img_matches descBind nbind x2 = false
            simpa using hb
      · rw [if_neg hemp] at h
        cases hmM : (imgs.filter (img_matches descBind nbind)).mapM
            (combine_one_img descBind nbind) with
        | none => rw [hmM] at h; exact Option.noConfusion h
        | some newVars =>
          rw [hmM] at h
          refine ih _ _ res h hrestss hremimg ?_ ?_ s hs hsD x hx hxD
          · intro x2 hx2
            rcases List.mem_append.mp hx2 with h2 | h2
            · exact houtimg x2 h2
            · obtain ⟨c, hc, hcw⟩ := mapM_option_mem_rev _ _ newVars hmM x2 h2
              obtain ⟨n2, img, hshape⟩ := combine_one_img_shape descBind nbind c x2 hcw
              rw [hshape]
              rfl
          · intro s2 hs2 hs2D x2 hx2
            rcases List.mem_append.mp hs2 with h2 | h2
            · exact houtsamp s2 h2 hs2D x2 (List.mem_of_mem_filter hx2)
            · obtain ⟨c, hc, hcw⟩ := mapM_option_mem_rev _ _ newVars hmM s2 h2
              obtain ⟨n2, img, hshape⟩ := combine_one_img_shape descBind nbind c s2 hcw
              rw [hshape] at hs2D
              simp [samplerD, Variable.descTy] at hs2D
    | input n l t => exact Option.noConfusion h
    | output n l t => exact Option.noConfusion h
    | pushConstant n t => exact Option.noConfusion h
    | specConstant n i t => exact Option.noConfusion h

theorem combine_loop_all_unmatched :
    ∀ (U R O : List Variable),
      (∀ u ∈ U, samplerD u = true) →
      (∀ u ∈ U, ∀ x ∈ R, matchOf u x = false) →
      combine_loop U R O = some (O ++ U ++ R) := by
  intro U
  induction U with
  | nil => intro R O _ _; simp [combine_loop]
  | cons u rest ih =>
    intro R O hU hnm
    obtain ⟨name, descBind, ty, nb, hu⟩ :=
      samplerD_shape u (hU u (List.mem_cons_self u rest))
    subst hu
    simp only [combine_loop]
    have hfilt : R.filter (img_matches descBind nb) = [] := by
      rw [List.filter_eq_nil_iff]
      intro a ha
      have hm2 : img_matches descBind nb a = false :=
        hnm _ (List.mem_cons_self _ _) a ha
      simp [hm2]
    have hrem : R.filter (fun v => !(img_matches descBind nb v)) = R := by
      rw [List.filter_eq_self]
      intro a ha
      have hm2 : img_matches descBind nb a = false :=
        hnm _ (List.mem_cons_self _ _) a ha
      simp [hm2]
    rw [hfilt, hrem]
    rw [List.isEmpty_nil, if_pos rfl]
    rw [ih R (O ++ [Variable.descriptor name descBind .sampler ty nb])
      (fun u2 h2 => hU u2 (List.mem_cons_of_mem _ h2))
      (fun u2 h2 x hx => hnm u2 (List.mem_cons_of_mem _ h2) x hx)]
    congr 1
    simp

theorem perm_three_filter {α : Type} (p q : α → Bool)
    (hpq : ∀ v, p v = true → q v = false) :
    ∀ l : List α,
      l.Perm (l.filter (fun v => !(p v) && !(q v)) ++ l.filter p ++ l.filter q) := by
  intro l
  induction l with
  | nil => exact List.Perm.refl _
  | cons v t ih =>
    cases hp : p v with
    | true =>
      have hq := hpq v hp
      have e1 : (v :: t).filter (fun x => !(p x) && !(q x)) =
          t.filter (fun x => !(p x) && !(q x)) := by
        simp [List.filter_cons, hp]
      have e2 : (v :: t).filter p = v :: t.filter p := by
        simp [List.filter_cons, hp]
      have e3 : (v :: t).filter q = t.filter q := by
        simp [List.filter_cons, hq]
      rw [e1, e2, e3]
      exact (ih.cons v).trans
        ((List.perm_middle.symm).append_right (t.filter q))
    | false =>
      cases hq : q v with
      | true =>
        have e1 : (v :: t).filter (fun x => !(p x) && !(q x)) =
            t.filter (fun x => !(p x) && !(q x)) := by
          simp [List.filter_cons, hq]
        have e2 : (v :: t).filter p = t.filter p := by
          simp [List.filter_cons, hp]
        have e3 : (v :: t).filter q = v :: t.filter q := by
          simp [List.filter_cons, hq]
        rw [e1, e2, e3]
        exact (ih.cons v).trans List.perm_middle.symm
      | false =>
        have e1 : (v :: t).filter (fun x => !(p x) && !(q x)) =
            v :: t.filter (fun x => !(p x) && !(q x)) := by
          simp [List.filter_cons, hp, hq]
        have e2 : (v :: t).filter p = t.filter p := by
          simp [List.filter_cons, hp]
        have e3 : (v :: t).filter q = t.filter q := by
          simp [List.filter_cons, hq]
        rw [e1, e2, e3]
        exact ih.cons v

/-- C6 (amended): for a variable list in which every SampledImage
descriptor carries an image type (as reflection guarantees), fusion
succeeds, is idempotent up to permutation of the output, and preserves
every variable locator - in particular every pre-fusion (set, binding)
pair appears at least once post-fusion.  Strict list-level idempotence
fails (see the counterexample): a second pass reorders unmatched
samplers relative to combined descriptors. -/
theorem claim_C6_amended (vars : List Variable)
    (hwf : ∀ v ∈ vars, v.descTy = some DescriptorType.sampledImage →
      ∃ name descBind img nb,
        v = .descriptor name descBind .sampledImage (.image img) nb) :
    ∃ once twice, combine_img_samplers vars = some once ∧
      combine_img_samplers once = some twice ∧ twice.Perm once ∧
      ∀ v ∈ vars, ∃ w ∈ once, w.locator = v.locator := by
  have hS : ∀ s ∈ vars.filter samplerD, samplerD s = true :=
    fun s hs => (List.mem_filter.mp hs).2
  have hI : ∀ x ∈ vars.filter imgD, ∃ name descBind img nb,
      x = .descriptor name descBind .sampledImage (.image img) nb := by
    intro x hx
    have h2 := List.mem_filter.mp hx
    exact hwf x h2.1 (imgD_descTy x h2.2)
  obtain ⟨once, honce⟩ := combine_loop_some (vars.filter samplerD) (vars.filter imgD)
    (vars.filter (fun v => !(samplerD v) && !(imgD v))) hS hI
  have hcomb1 : combine_img_samplers vars = some once := by
    unfold combine_img_samplers
    rw [combine_partition_eq]
    exact honce
  have hpres : ∀ v ∈ vars, ∃ w ∈ once, w.locator = v.locator := by
    intro v hv
    cases hs : samplerD v with
    | true =>
      exact combine_loop_sampler_locator _ _ _ once honce v (List.mem_filter.mpr ⟨hv, hs⟩)
    | false =>
      cases hi : imgD v with
      | true =>
        exact combine_loop_img_locator _ _ _ once honce v (List.mem_filter.mpr ⟨hv, hi⟩)
      | false =>
        refine ⟨v, combine_loop_out_mem _ _ _ once honce v
          (List.mem_filter.mpr ⟨hv, ?_⟩), rfl⟩
        rw [hs, hi]
        rfl
  have hnm : ∀ s ∈ once, samplerD s = true →
      ∀ x ∈ once, imgD x = true → matchOf s x = false := by
    refine combine_loop_no_match _ _ _ once honce hS
      (fun x hx => (List.mem_filter.mp hx).2) ?_ ?_
    · intro x hx
      have h2 := (List.mem_filter.mp hx).2
      cases hi : imgD x with
      | false => rfl
      | true => rw [hi] at h2; simp at h2
    · intro s hsmem hsD x hx
      have h2 := (List.mem_filter.mp hsmem).2
      rw [hsD] at h2
      simp at h2
  have hsecond : combine_loop (once.filter samplerD) (once.filter imgD)
      (once.filter (fun v => !(samplerD v) && !(imgD v))) =
      some ((once.filter (fun v => !(samplerD v) && !(imgD v))) ++
        once.filter samplerD ++ once.filter imgD) := by
    apply combine_loop_all_unmatched
    · exact fun u hu => (List.mem_filter.mp hu).2
    · intro u hu x hx
      exact hnm u (List.mem_of_mem_filter hu) (List.mem_filter.mp hu).2
        x (List.mem_of_mem_filter hx) (List.mem_filter.mp hx).2
  refine ⟨once, (once.filter (fun v => !(samplerD v) && !(imgD v))) ++
    once.filter samplerD ++ once.filter imgD, hcomb1, ?_, ?_, hpres⟩
  · unfold combine_img_samplers
    rw [combine_partition_eq]
    exact hsecond
  · exact (perm_three_filter samplerD imgD not_imgD_of_samplerD once).symm

/-- Witness for C6 (amended) at a concrete sampler and matching image:
fusion produces the combined descriptor, a second pass fixes it, and the
binding pair survives. -/
theorem claim_C6_amended_witness :
    ∃ once twice, combine_img_samplers [varS2, varI] = some once ∧
      combine_img_samplers once = some twice ∧ twice.Perm once ∧
      ∀ v ∈ [varS2, varI], ∃ w ∈ once, w.locator = v.locator :=
  claim_C6_amended [varS2, varI] (by
    intro v hv hd
    rcases List.mem_cons.mp hv with rfl | hv2
    · exact absurd hd (by simp [varS2, Variable.descTy])
    · rcases List.mem_cons.mp hv2 with rfl | hv3
      · exact ⟨some "i", ⟨0, 0⟩, imgTyC6, 1, rfl⟩
      · exact absurd hv3 (by simp))

end Spirq
